import Mathlib

/-!
# Verification of the SpatialGrid plugin core

Shallow embedding of the SpatialGrid C++ sources: the generational slot map
(`SlotMap.h`), the uniform grid (`Grid.h`), the sphere region query
(`Query.h`), the line trace (`SpatialGridLineTrace.h`) and the math helpers
(`SpatialGridUtils.h` / `SpatialGridTypes.cpp`).

Modelling conventions:
* `double` is embedded as `ℚ` with exact arithmetic.  Compile-time floating
  point constants are embedded by their exact IEEE-754 value:
  `FMath::Sqrt(3.0)` is `3900231685776981 / 2^51`, `BIG_NUMBER` (the value
  `FVector::Reciprocal` substitutes for a zero component) is the 32-bit float
  `3.4e38`, and `DBL_MAX` is `(2^53 - 1) * 2^971`.
* `FMath::Sqrt` applied to a run-time value has no exact rational meaning, so
  the functions that call it (`LineSphereHitPoint`, `Bounds::GetRadius` on a
  box) take the square-root routine as an explicit parameter `sqrtFn`;
  theorems about traces that never reach those calls quantify over it.
* A default-constructed `FBox` (`FBox Bounds;` members of `TSpatialGrid` and
  of `TSpatialGrid::Cell`) is indeterminate in C++.  The grid envelope is
  modelled as `Option Box` (`none` = never assigned, matching `IsValid = 0`);
  the per-cell box, which no code path ever assigns, is modelled as an
  `Option Box` field that stays `none`, and query code reads it through an
  explicit `junk : CellIndex → Box` parameter standing for the indeterminate
  memory contents.  Theorems quantify over `junk`.
* Out-of-bounds vector accesses (undefined behaviour in C++) are modelled by
  `Option`-returning list indexing; the branches in question are unreachable
  in every trace considered below.
* `check`/`checkf` assertions do not alter state and are modelled as no-ops;
  where a theorem needs an assertion's guarantee it appears as a hypothesis.
-/

set_option linter.unusedVariables false

namespace SpatialGrid

/-- Exact value of the IEEE-754 double `FMath::Sqrt(3.0)` used by
`SpatialGrid::half_diagonal`. -/
def sqrtThreeDouble : ℚ := 3900231685776981 / 2251799813685248

/-- Exact value of the 32-bit float constant `BIG_NUMBER` (`3.4e+38f`),
substituted by `FVector::Reciprocal` for zero components. -/
def bigNumber : ℚ := 339999995214436424907732413799364296704

/-- Exact value of `DBL_MAX`, used by `INVALID_LOCATION`. -/
def dblMax : ℚ := (2 ^ 53 - 1) * 2 ^ 971

/-- `FMath::Square`. -/
def fsquare (a : ℚ) : ℚ := a * a

/-- `FMath::RoundToInt32` (round half away from zero is not used by UE;
`RoundToInt32(F)` is `FloorToInt32(F + 0.5)`).  `Rat.floor` is used rather
than `Int.floor` so that the kernel can evaluate concrete instances; the two
agree (`roundToInt32_eq_intFloor`). -/
def roundToInt32 (a : ℚ) : ℤ := (a + 1 / 2).floor

theorem roundToInt32_eq_intFloor (a : ℚ) : roundToInt32 a = ⌊a + 1 / 2⌋ := by
  rw [roundToInt32, Rat.floor_def' (a + 1 / 2), Rat.floor_def]

/-- `FVector`, embedded with exact rational coordinates. -/
structure Vec3 where
  x : ℚ
  y : ℚ
  z : ℚ
deriving DecidableEq

instance : Add Vec3 := ⟨fun a b => ⟨a.x + b.x, a.y + b.y, a.z + b.z⟩⟩

instance : Sub Vec3 := ⟨fun a b => ⟨a.x - b.x, a.y - b.y, a.z - b.z⟩⟩

theorem Vec3.add_x (a b : Vec3) : (a + b).x = a.x + b.x := rfl

theorem Vec3.add_y (a b : Vec3) : (a + b).y = a.y + b.y := rfl

theorem Vec3.add_z (a b : Vec3) : (a + b).z = a.z + b.z := rfl

theorem Vec3.sub_x (a b : Vec3) : (a - b).x = a.x - b.x := rfl

theorem Vec3.sub_y (a b : Vec3) : (a - b).y = a.y - b.y := rfl

theorem Vec3.sub_z (a b : Vec3) : (a - b).z = a.z - b.z := rfl

/-- Componentwise product (`FVector::operator*(FVector)`). -/
def Vec3.cmul (a b : Vec3) : Vec3 := ⟨a.x * b.x, a.y * b.y, a.z * b.z⟩

/-- Scalar product (`FVector::operator*(double)`). -/
def Vec3.scale (a : Vec3) (q : ℚ) : Vec3 := ⟨a.x * q, a.y * q, a.z * q⟩

/-- Scalar division (`FVector::operator/(double)`); division by zero follows
the rational convention `q / 0 = 0` and is never reached with a positive
cell size. -/
def Vec3.sdiv (a : Vec3) (q : ℚ) : Vec3 := ⟨a.x / q, a.y / q, a.z / q⟩

/-- Dot product (`operator|`). -/
def Vec3.dot (a b : Vec3) : ℚ := a.x * b.x + a.y * b.y + a.z * b.z

/-- `FVector::SizeSquared`. -/
def Vec3.sizeSquared (a : Vec3) : ℚ := a.x * a.x + a.y * a.y + a.z * a.z

/-- `FVector::DistSquared`. -/
def distSquared (a b : Vec3) : ℚ := (a - b).sizeSquared

/-- `FVector::Max` (componentwise). -/
def Vec3.vmax (a b : Vec3) : Vec3 := ⟨max a.x b.x, max a.y b.y, max a.z b.z⟩

/-- `FVector::Reciprocal`: componentwise reciprocal with `BIG_NUMBER`
substituted for zero components. -/
def Vec3.reciprocal (a : Vec3) : Vec3 :=
  ⟨if a.x ≠ 0 then 1 / a.x else bigNumber,
   if a.y ≠ 0 then 1 / a.y else bigNumber,
   if a.z ≠ 0 then 1 / a.z else bigNumber⟩

def Vec3.zero : Vec3 := ⟨0, 0, 0⟩

/-- `INVALID_LOCATION = FVector(DBL_MAX)`. -/
def invalidLocation : Vec3 := ⟨dblMax, dblMax, dblMax⟩

/-- `CellIndex = FIntVector`: signed integer lattice coordinate. -/
structure CellIndex where
  x : ℤ
  y : ℤ
  z : ℤ
deriving DecidableEq

instance : Add CellIndex := ⟨fun a b => ⟨a.x + b.x, a.y + b.y, a.z + b.z⟩⟩

/-- `RoundVecToInt`. -/
def roundVecToInt (v : Vec3) : CellIndex :=
  ⟨roundToInt32 v.x, roundToInt32 v.y, roundToInt32 v.z⟩

/-- `FBox` with a definite value (`IsValid = 1`). -/
structure Box where
  bmin : Vec3
  bmax : Vec3
deriving DecidableEq

/-- `FBox::IsInside` (strict inequalities on every axis). -/
def Box.isInside (b : Box) (v : Vec3) : Bool :=
  decide (b.bmin.x < v.x ∧ v.x < b.bmax.x ∧ b.bmin.y < v.y ∧ v.y < b.bmax.y ∧
    b.bmin.z < v.z ∧ v.z < b.bmax.z)

/-- `FBox::GetClosestPointTo`: clamp the point onto the box. -/
def Box.closestPointTo (b : Box) (v : Vec3) : Vec3 :=
  ⟨max b.bmin.x (min b.bmax.x v.x),
   max b.bmin.y (min b.bmax.y v.y),
   max b.bmin.z (min b.bmax.z v.z)⟩

/-- `FBox::operator+=(FBox)` on two valid boxes: the enclosing hull. -/
def Box.hull (a b : Box) : Box :=
  ⟨⟨min a.bmin.x b.bmin.x, min a.bmin.y b.bmin.y, min a.bmin.z b.bmin.z⟩,
   ⟨max a.bmax.x b.bmax.x, max a.bmax.y b.bmax.y, max a.bmax.z b.bmax.z⟩⟩

/-- `FBox::operator+=` on a possibly-invalid accumulator (`none` models
`IsValid = 0`). -/
def envAdd (e : Option Box) (b : Box) : Option Box :=
  match e with
  | none => some b
  | some a => some (a.hull b)

/-- `BoxIntersectsSphere` (closest-point test, radius given directly). -/
def boxIntersectsSphere (boxOrigin boxExtent sphereOrigin : Vec3)
    (sphereRadius : ℚ) : Bool :=
  decide (distSquared sphereOrigin
    ((Box.mk (boxOrigin - boxExtent) (boxOrigin + boxExtent)).closestPointTo sphereOrigin) ≤
    fsquare sphereRadius)

/-- `BoxIntersectsSphereRadiusSq` (closest-point test, squared radius). -/
def boxIntersectsSphereRadiusSq (b : Box) (sphereOrigin : Vec3) (radiusSq : ℚ) : Bool :=
  decide (distSquared sphereOrigin (b.closestPointTo sphereOrigin) ≤ radiusSq)

/-- One axis of the slab test: update the running entry/exit parameters. -/
def slabAxis (bmin bmax start invDir : ℚ) (acc : ℚ × ℚ) : ℚ × ℚ :=
  let t1 := (bmin - start) * invDir
  let t2 := (bmax - start) * invDir
  (max acc.1 (min t1 t2), min acc.2 (max t1 t2))

/-- Lowest / highest double, the initial slab parameters
(`TNumericLimits<double>::Lowest/Max`). -/
def dblLowest : ℚ := -dblMax

/-- The three-axis slab sweep of `LineIntersectsBox` / `LineBoxHitPoint`,
returning the final `(t_entry, t_exit)` pair.  The C++ loop early-returns as
soon as `t_entry > t_exit`; since the entry value only grows and the exit
value only shrinks, the early exit fires exactly when the final values
satisfy `t_entry > t_exit`, so the final pair determines the outcome. -/
def slabSweep (b : Box) (start invDir : Vec3) : ℚ × ℚ :=
  slabAxis b.bmin.z b.bmax.z start.z invDir.z
    (slabAxis b.bmin.y b.bmax.y start.y invDir.y
      (slabAxis b.bmin.x b.bmax.x start.x invDir.x (dblLowest, dblMax)))

/-- `LineIntersectsBox` (slab method). -/
def lineIntersectsBox (b : Box) (start invDir : Vec3) : Bool :=
  let te := slabSweep b start invDir
  decide (te.1 ≤ te.2)

/-- `LineBoxHitPoint` (the `std::optional` overload). -/
def lineBoxHitPoint (b : Box) (start lend dir invDir : Vec3) : Option Vec3 :=
  if b.isInside start then some start
  else
    let te := slabSweep b start invDir
    if te.1 > te.2 then none
    else if te.1 < 0 ∨ fsquare te.1 > distSquared start lend then none
    else some (start + dir.scale te.1)

/-- `LineSphereHitPoint` (the `std::optional` overload).  `sqrtFn` stands for
`FMath::Sqrt`. -/
def lineSphereHitPoint (sqrtFn : ℚ → ℚ) (start lend dir sphereOrigin : Vec3)
    (sphereRadius : ℚ) : Option Vec3 :=
  let startToCenter := start - sphereOrigin
  let radiusSquared := sphereRadius * sphereRadius
  if startToCenter.sizeSquared < radiusSquared then some start
  else
    let v := dir.dot (sphereOrigin - start)
    let discriminant := radiusSquared - (startToCenter.dot startToCenter - v * v)
    if discriminant < 0 then none
    else
      let time := v - sqrtFn discriminant
      if time < 0 ∨ fsquare time > distSquared start lend then none
      else some (start + dir.scale time)

/-- `BoundsType` plus the member of the union that is live for it. -/
inductive BShape where
  | box (extent : Vec3)
  | sphere (radius : ℚ)
deriving DecidableEq

/-- `SpatialGrid::Bounds`: an origin with a tagged box/sphere payload. -/
structure Bounds where
  origin : Vec3
  shape : BShape
deriving DecidableEq

/-- `Bounds::GetRadius` (box diagonal needs `FVector::Size`, i.e. a square
root, hence `sqrtFn`). -/
def Bounds.getRadius (sqrtFn : ℚ → ℚ) (b : Bounds) : ℚ :=
  match b.shape with
  | .box extent => sqrtFn extent.sizeSquared
  | .sphere radius => radius

/-- `Bounds::OverlapsSphere`. -/
def Bounds.overlapsSphere (b : Bounds) (sphereOrigin : Vec3) (sphereRadius : ℚ) : Bool :=
  match b.shape with
  | .box extent => boxIntersectsSphere b.origin extent sphereOrigin sphereRadius
  | .sphere radius =>
      decide (distSquared sphereOrigin b.origin ≤ fsquare (radius + sphereRadius))

/-- `Bounds::LineHitPoint`. -/
def Bounds.lineHitPoint (sqrtFn : ℚ → ℚ) (b : Bounds) (start lend dir invDir : Vec3) :
    Option Vec3 :=
  match b.shape with
  | .box extent => lineBoxHitPoint ⟨b.origin - extent, b.origin + extent⟩ start lend dir invDir
  | .sphere radius => lineSphereHitPoint sqrtFn start lend dir b.origin radius

/-! ## The generational slot map (`SlotMap.h`) -/

/-- `SpatialGrid::ElementId`.  `Index` and `Version` are `uint32_t`; every
operation below keeps them far from `2^32`, so plain naturals are used. -/
structure ElementId where
  index : ℕ
  version : ℕ
deriving DecidableEq

/-- `ElementId()` default-constructs to index 0, version 0. -/
def ElementId.null : ElementId := ⟨0, 0⟩

/-- `SpatialGrid::Slot`: even version = vacant, odd = occupied;
`IdxOrFree` is a dense index when occupied, the next free slot otherwise. -/
structure Slot where
  version : ℕ
  idxOrFree : ℕ
deriving DecidableEq

/-- `Slot::IsOccupied`. -/
def Slot.isOccupied (s : Slot) : Bool := decide (s.version % 2 ≠ 0)

/-- `TSlotMap<V>`: slots, dense storage and the free-list head. -/
structure SlotMap (V : Type) where
  slots : List Slot
  dense : List (ElementId × V)
  freeHead : ℕ
deriving DecidableEq

def SlotMap.empty {V : Type} : SlotMap V := ⟨[], [], 0⟩

/-- `TSlotMap::Insert`.  Faithful to the source, including the comparison of
`FreeHead` against `Dense.size()` (not `Slots.size()`) that selects the
reuse branch, and including the fatal-overflow guard which returns a default
`ElementId` without inserting.  The out-of-range read `Slots[index]` that the
reuse branch performs when `index ≥ Slots.size()` is undefined behaviour in
C++ and is modelled as returning without inserting; no trace below reaches
it. -/
def SlotMap.insert {V : Type} (m : SlotMap V) (v : V) : ElementId × SlotMap V :=
  if m.dense.length ≥ 4294967295 then (ElementId.null, m)
  else
    let index := m.freeHead
    if index < m.dense.length then
      match m.slots[index]? with
      | some slot =>
          let version := slot.version ||| 1
          let slots' := m.slots.set index ⟨version, m.dense.length⟩
          let id : ElementId := ⟨index, version⟩
          (id, ⟨slots', m.dense ++ [(id, v)], slot.idxOrFree⟩)
      | none => (ElementId.null, m)
    else
      let version := 1
      let slots' := m.slots ++ [⟨1, m.dense.length⟩]
      let id : ElementId := ⟨index, version⟩
      (id, ⟨slots', m.dense ++ [(id, v)], slots'.length⟩)

/-- `TSlotMap::Remove`.  The `check` assertions of the source do not change
state; the dense access they guard is modelled with `Option` indexing and
the impossible branch returns without removing. -/
def SlotMap.remove {V : Type} (m : SlotMap V) (id : ElementId) : Option V × SlotMap V :=
  match m.slots[id.index]? with
  | none => (none, m)
  | some slot =>
    if ¬ slot.isOccupied ∨ slot.version ≠ id.version then (none, m)
    else
      let denseIdx := slot.idxOrFree
      match m.dense[denseIdx]? with
      | none => (none, m)
      | some entry =>
        let slots' := m.slots.set id.index ⟨slot.version + 1, m.freeHead⟩
        let dense' :=
          if denseIdx ≠ m.dense.length - 1 then
            match m.dense.getLast? with
            | some lastEntry =>
                ((m.dense.set denseIdx lastEntry).dropLast,
                  some lastEntry.1.index)
            | none => (m.dense.dropLast, none)
          else (m.dense.dropLast, none)
        let slots'' :=
          match dense'.2 with
          | some movedIndex =>
              match slots'[movedIndex]? with
              | some movedSlot => slots'.set movedIndex ⟨movedSlot.version, denseIdx⟩
              | none => slots'
          | none => slots'
        (some entry.2, ⟨slots'', dense'.1, id.index⟩)

/-- `TSlotMap::Contains`, exactly as in the source (the version comparison
uses `!=`). -/
def SlotMap.contains {V : Type} (m : SlotMap V) (id : ElementId) : Bool :=
  match m.slots[id.index]? with
  | none => false
  | some slot => slot.isOccupied && decide (slot.version ≠ id.version)

/-- `TSlotMap::Get` (const overload).  The unchecked dense access is modelled
with `Option` indexing. -/
def SlotMap.get {V : Type} (m : SlotMap V) (id : ElementId) : Option V :=
  match m.slots[id.index]? with
  | none => none
  | some slot =>
    if slot.isOccupied ∧ slot.version = id.version then
      (m.dense[slot.idxOrFree]?).map (·.2)
    else none

/-- `TSlotMap::ApplyAt`: returns the `(id, value)` pair the visitor would be
invoked with, or `none` when the visitor is not invoked.  Faithful to the
source: the guard early-returns when `id.Index < Slots.size()`, i.e. when the
index IS in range; when the index is out of range the subsequent
`Slots[id.Index]` read is out of bounds (undefined behaviour in C++),
modelled by `Option` indexing. -/
def SlotMap.applyAt {V : Type} (m : SlotMap V) (id : ElementId) : Option (ElementId × V) :=
  if id.index < m.slots.length then none
  else
    match m.slots[id.index]? with
    | none => none
    | some slot =>
      if slot.isOccupied ∧ slot.version = id.version then m.dense[slot.idxOrFree]?
      else none

/-- `ApplyAt` never invokes its visitor: in-range indices take the reversed
early return, out-of-range indices have no slot to read. -/
theorem SlotMap.applyAt_eq_none {V : Type} (m : SlotMap V) (id : ElementId) :
    m.applyAt id = none := by
  unfold SlotMap.applyAt
  by_cases h : id.index < m.slots.length
  · simp [h]
  · have hnone : m.slots[id.index]? = none := by
      rw [List.getElem?_eq_none_iff]
      omega
    simp [h, hnone]

/-! ## The uniform grid (`Grid.h`) -/

/-- `TSpatialGrid::Element`: host cell, bounds and caller payload. -/
structure Element (α : Type) where
  cell : CellIndex
  bounds : Bounds
  data : α
deriving DecidableEq

/-- `TSpatialGrid::Cell`.  `elems` is the `ankerl::unordered_dense::set` of
element ids in insertion order (erase moves the last entry into the freed
position).  `cellBox` is the `FBox Bounds` member: it is default-constructed
(indeterminate) and no code path ever assigns it, recorded here as an
`Option Box` that stays `none`. -/
structure Cell where
  elems : List ElementId
  cellBox : Option Box
deriving DecidableEq

def Cell.emptyCell : Cell := ⟨[], none⟩

/-- `Cell::HasElements`. -/
def Cell.hasElements (c : Cell) : Bool := decide (c.elems ≠ [])

/-- `ankerl::unordered_dense::set::insert`: no-op when present, append
otherwise. -/
def setInsert (l : List ElementId) (id : ElementId) : List ElementId :=
  if id ∈ l then l else l ++ [id]

/-- Position of the first occurrence. -/
def findPos : List ElementId → ElementId → Option ℕ
  | [], _ => none
  | a :: rest, id =>
      if a = id then some 0
      else (findPos rest id).map (· + 1)

/-- `ankerl::unordered_dense::set::erase`: move the last entry into the
erased position and pop the back. -/
def setErase (l : List ElementId) (id : ElementId) : List ElementId :=
  match findPos l id with
  | none => l
  | some i =>
    match l.getLast? with
    | none => l
    | some lastEntry => (l.set i lastEntry).dropLast

/-- `TSpatialGrid`: origin, slot map of elements, cell table (association
list in `ankerl::unordered_dense::map` insertion order) and the growing
envelope box (`none` = still default-constructed / invalid). -/
structure Grid (α : Type) where
  origin : Vec3
  elements : SlotMap (Element α)
  cells : List (CellIndex × Cell)
  envelope : Option Box
deriving DecidableEq

def Grid.emptyGrid {α : Type} : Grid α := ⟨Vec3.zero, SlotMap.empty, [], none⟩

/-- Association-list lookup, mirroring `Cells.find`. -/
def assocFind {α : Type} (l : List (CellIndex × α)) (c : CellIndex) : Option α :=
  match l with
  | [] => none
  | (k, v) :: rest => if k = c then some v else assocFind rest c

/-- Update the entry at a key (first occurrence) in place. -/
def assocUpdate {α : Type} (l : List (CellIndex × α)) (c : CellIndex) (f : α → α) :
    List (CellIndex × α) :=
  match l with
  | [] => []
  | (k, v) :: rest => if k = c then (k, f v) :: rest else (k, v) :: assocUpdate rest c f

/-- `TSpatialGrid::GetCell` (pointer overload). -/
def Grid.findCell {α : Type} (g : Grid α) (c : CellIndex) : Option Cell :=
  assocFind g.cells c

/-- `TSpatialGrid::NumCells`. -/
def Grid.numCells {α : Type} (g : Grid α) : ℕ := g.cells.length

/-- `TSpatialGrid::LocationToCoordinates`. -/
def locToCoords (cs : ℚ) (origin v : Vec3) : CellIndex :=
  roundVecToInt ((v - origin).sdiv cs)

/-- `TSpatialGrid::CellCenter`. -/
def cellCenter (cs : ℚ) (origin : Vec3) (c : CellIndex) : Vec3 :=
  ⟨origin.x + c.x * cs, origin.y + c.y * cs, origin.z + c.z * cs⟩

/-- `SpatialGrid::CellExtent` (half the cell size on every axis). -/
def cellExtent (cs : ℚ) : Vec3 := ⟨cs / 2, cs / 2, cs / 2⟩

/-- `SpatialGrid::half_diagonal`: `HalfCellSize * FMath::Sqrt(3.0)`, with the
square root of three at its exact double value. -/
def halfDiagonal (cs : ℚ) : ℚ := cs / 2 * sqrtThreeDouble

/-- The geometric box of a cell (`cell_origin ± cell_extent`), the value
`FindOrAddCell` adds to the envelope. -/
def cellGeomBox (cs : ℚ) (origin : Vec3) (c : CellIndex) : Box :=
  ⟨cellCenter cs origin c - cellExtent cs, cellCenter cs origin c + cellExtent cs⟩

/-- `TSpatialGrid::FindOrAddCell`: `try_emplace` the coordinate and, for a
new cell, extend the envelope by the cell's geometric box.  (The cell's own
`Bounds` member is NOT assigned, as in the source.) -/
def Grid.findOrAddCell {α : Type} (cs : ℚ) (g : Grid α) (coords : CellIndex) : Grid α :=
  match g.findCell coords with
  | some _ => g
  | none =>
      { g with
        cells := g.cells ++ [(coords, Cell.emptyCell)],
        envelope := envAdd g.envelope (cellGeomBox cs g.origin coords) }

/-- `TSpatialGrid::AddElement`.  The `checkf` on the element radius does not
change state and is modelled as a no-op (theorems that rely on it take it as
a hypothesis). -/
def Grid.addElement {α : Type} (cs : ℚ) (g : Grid α) (bounds : Bounds) (data : α) :
    ElementId × Grid α :=
  let coords := locToCoords cs g.origin bounds.origin
  let ins := g.elements.insert ⟨coords, bounds, data⟩
  let g1 : Grid α := { g with elements := ins.2 }
  let g2 := g1.findOrAddCell cs coords
  let g3 : Grid α :=
    { g2 with cells := assocUpdate g2.cells coords (fun cell => { cell with elems := setInsert cell.elems ins.1 }) }
  (ins.1, g3)

/-- `TSpatialGrid::RemoveElement`.  The C++ function returns `void`; the
slot-map's removed element is exposed here for observation. -/
def Grid.removeElement {α : Type} (g : Grid α) (id : ElementId) :
    Option (Element α) × Grid α :=
  match g.elements.remove id with
  | (some elem, sm') =>
      let g1 : Grid α := { g with elements := sm' }
      match g1.findCell elem.cell with
      | some _ =>
          (some elem,
            { g1 with cells := assocUpdate g1.cells elem.cell (fun cell => { cell with elems := setErase cell.elems id }) })
      | none => (some elem, g1)
  | (none, sm') => (none, { g with elements := sm' })

/-- `TSpatialGrid::ClearEmptyCells`. -/
def Grid.clearEmptyCells {α : Type} (g : Grid α) : Grid α :=
  { g with cells := g.cells.filter (fun e => e.2.hasElements) }

/-- `TSpatialGrid::IsCellWithinBounds`: the envelope contains the cell
center.  A default-constructed (invalid) envelope is indeterminate in C++;
`none` is modelled as `false`, and no trace below reads it. -/
def Grid.isCellWithinBounds {α : Type} (cs : ℚ) (g : Grid α) (c : CellIndex) : Bool :=
  match g.envelope with
  | none => false
  | some b => b.isInside (cellCenter cs g.origin c)

/-- `Cell::ForEachElement` as the list of `(id, element)` pairs handed to the
visitor: each id is projected through `TSlotMap::ApplyAt`. -/
def cellEmit {α : Type} (g : Grid α) (ids : List ElementId) : List (ElementId × Element α) :=
  ids.filterMap (fun id => g.elements.applyAt id)

/-- Because `ApplyAt` never invokes its visitor, no cell ever emits. -/
theorem cellEmit_eq_nil {α : Type} (g : Grid α) (ids : List ElementId) :
    cellEmit g ids = [] := by
  unfold cellEmit
  induction ids with
  | nil => rfl
  | cons a rest ih => simp [SlotMap.applyAt_eq_none, ih]

/-! ## Cell ranges (`SpatialGridUtils.h`) -/

/-- Inclusive integer range `[lo, hi]` as a list. -/
def intRange (lo hi : ℤ) : List ℤ :=
  (List.range (hi + 1 - lo).toNat).map (fun i : ℕ => lo + (i : ℤ))

/-- `CellRange::ForEach` enumeration order: `z` outermost, then `y`, then
`x`, each from `-step` to `step`. -/
def cellRangeList (step : ℤ) : List CellIndex :=
  (intRange (-step) step).flatMap (fun z =>
    (intRange (-step) step).flatMap (fun y =>
      (intRange (-step) step).map (fun x => (⟨x, y, z⟩ : CellIndex))))

/-- `CellRange::Count`. -/
def cellRangeCount (step : ℤ) : ℤ := (step * 2 + 1) * (step * 2 + 1) * (step * 2 + 1)

/-! ## The sphere region query (`Query.h`, `part_002`) -/

/-- `TSphereQuery<Cached>`: radius plus the precomputed offset lists. -/
structure SphereQueryCached where
  radius : ℚ
  innerCells : List CellIndex
  edgeCells : List CellIndex
  outerCells : List CellIndex
deriving DecidableEq

/-- `TSphereQuery<Cached>::CellCount`. -/
def SphereQueryCached.cellCount (q : SphereQueryCached) : ℕ :=
  q.innerCells.length + q.edgeCells.length + q.outerCells.length

/-- The far-corner vector `BuildCached` computes for an offset: on each axis
the corner of the offset cell farthest from the origin. -/
def farthestCorner (cs : ℚ) (idx : CellIndex) : Vec3 :=
  let cc : Vec3 := ⟨idx.x * cs, idx.y * cs, idx.z * cs⟩
  ⟨if 0 < cc.x then cc.x + cs / 2 else cc.x - cs / 2,
   if 0 < cc.y then cc.y + cs / 2 else cc.y - cs / 2,
   if 0 < cc.z then cc.z + cs / 2 else cc.z - cs / 2⟩

/-- The inner-cell classification test of `BuildCached`: the farthest corner
lies within the squared effective radius `Square(Radius - HalfDiagonal)`. -/
def innerTest (cs radius : ℚ) (idx : CellIndex) : Bool :=
  decide ((farthestCorner cs idx).sizeSquared ≤ fsquare (radius - halfDiagonal cs))

/-- The edge-cell test of `BuildCached` (applied when the inner test failed):
every coordinate strictly inside the bounding cube. -/
def edgeTest (b : ℤ) (idx : CellIndex) : Bool :=
  decide (|idx.x| < b ∧ |idx.y| < b ∧ |idx.z| < b)

/-- One step of the classification loop in `BuildCached`. -/
def classifyStep (cs radius : ℚ) (b : ℤ) (q : SphereQueryCached) (idx : CellIndex) :
    SphereQueryCached :=
  if innerTest cs radius idx then { q with innerCells := q.innerCells ++ [idx] }
  else if edgeTest b idx then { q with edgeCells := q.edgeCells ++ [idx] }
  else { q with outerCells := q.outerCells ++ [idx] }

/-- `TSphereQueryBuilder::BuildCached`. -/
def buildCached (cs radius : ℚ) : SphereQueryCached :=
  let b := roundToInt32 (radius / cs) + 1
  (cellRangeList |b|).foldl (classifyStep cs radius b) ⟨radius, [], [], []⟩

/-- The `FBox` value `cell.GetBounds()` yields: the never-assigned
(default-constructed) member, whose indeterminate contents are supplied by
`junk`. -/
def cellGetBounds (cell : Cell) (junk : CellIndex → Box) (c : CellIndex) : Box :=
  (cell.cellBox).getD (junk c)

/-- The `scan_element` filter of the query iterators: keep the pairs whose
bounds overlap the query sphere. -/
def scanElems {α : Type} (origin : Vec3) (radius : ℚ)
    (l : List (ElementId × Element α)) : List (ElementId × Element α) :=
  l.filter (fun p => p.2.bounds.overlapsSphere origin radius)

/-- The `scan_cell` step shared by both iterators: cell-box-versus-sphere
pruning, then the per-element test over `ForEachElement`. -/
def scanCell {α : Type} (g : Grid α) (junk : CellIndex → Box) (origin : Vec3)
    (radius radiusSq : ℚ) (c : CellIndex) (cell : Cell) : List (ElementId × Element α) :=
  if boxIntersectsSphereRadiusSq (cellGetBounds cell junk c) origin radiusSq then
    scanElems origin radius (cellEmit g cell.elems)
  else []

/-- `TQueryIter<Cached>::CachedEach`, as the list of `(id, element)` pairs
handed to the caller's visitor, in visit order. -/
def cachedEach {α : Type} (cs : ℚ) (q : SphereQueryCached) (g : Grid α)
    (junk : CellIndex → Box) (origin : Vec3) : List (ElementId × Element α) :=
  let radius := q.radius
  let radiusSq := radius * radius
  let offset := locToCoords cs g.origin origin
  if q.cellCount > g.numCells then
    g.cells.flatMap (fun e => scanCell g junk origin radius radiusSq e.1 e.2)
  else
    (q.innerCells.flatMap (fun c =>
      match g.findCell (c + offset) with
      | some cell => if cell.hasElements then cellEmit g cell.elems else []
      | none => []))
    ++ (q.edgeCells.flatMap (fun c =>
      match g.findCell (c + offset) with
      | some cell => scanElems origin radius (cellEmit g cell.elems)
      | none => []))
    ++ (q.outerCells.flatMap (fun c =>
      match g.findCell (c + offset) with
      | some cell =>
          if boxIntersectsSphereRadiusSq (cellGetBounds cell junk (c + offset)) origin radiusSq then
            scanElems origin radius (cellEmit g cell.elems)
          else []
      | none => []))

/-- `TQueryIter<UnCached>::UncachedEach`, as the list of emitted pairs. -/
def uncachedEach {α : Type} (cs radius : ℚ) (g : Grid α)
    (junk : CellIndex → Box) (origin : Vec3) : List (ElementId × Element α) :=
  let radiusSq := radius * radius
  let step := |roundToInt32 (radius / cs) + 1|
  let offset := locToCoords cs g.origin origin
  if cellRangeCount step > (g.numCells : ℤ) then
    g.cells.flatMap (fun e => scanCell g junk origin radius radiusSq e.1 e.2)
  else
    (cellRangeList step).flatMap (fun c =>
      match g.findCell (c + offset) with
      | some cell => scanCell g junk origin radius radiusSq (c + offset) cell
      | none => [])

/-- `scan_element` keeps nothing of an empty emission list. -/
theorem scanElems_nil {α : Type} (origin : Vec3) (radius : ℚ) :
    scanElems (α := α) origin radius [] = [] := rfl

/-- `scan_cell` emits nothing: the cell's element projection is empty. -/
theorem scanCell_eq_nil {α : Type} (g : Grid α) (junk : CellIndex → Box)
    (origin : Vec3) (radius radiusSq : ℚ) (c : CellIndex) (cell : Cell) :
    scanCell g junk origin radius radiusSq c cell = [] := by
  unfold scanCell
  rw [cellEmit_eq_nil]
  simp [scanElems]

/-- The cached iterator emits nothing, whatever the grid, query, origin and
indeterminate cell boxes: every element visit is routed through the broken
`ApplyAt`. -/
theorem cachedEach_eq_nil {α : Type} (cs : ℚ) (q : SphereQueryCached) (g : Grid α)
    (junk : CellIndex → Box) (origin : Vec3) :
    cachedEach cs q g junk origin = [] := by
  unfold cachedEach
  by_cases h : q.cellCount > g.numCells
  · simp only [h, if_pos, List.flatMap_eq_nil_iff]
    intro l hl
    exact scanCell_eq_nil ..
  · simp only [h, if_neg, not_false_iff, List.append_eq_nil,
      List.flatMap_eq_nil_iff]
    refine ⟨⟨fun c hc => ?_, fun c hc => ?_⟩, fun c hc => ?_⟩ <;>
      rcases hfind : g.findCell (c + locToCoords cs g.origin origin) with _ | cell <;>
      simp [hfind, cellEmit_eq_nil, scanElems]

/-- The on-demand iterator likewise emits nothing. -/
theorem uncachedEach_eq_nil {α : Type} (cs radius : ℚ) (g : Grid α)
    (junk : CellIndex → Box) (origin : Vec3) :
    uncachedEach cs radius g junk origin = [] := by
  unfold uncachedEach
  by_cases h : cellRangeCount |roundToInt32 (radius / cs) + 1| > (g.numCells : ℤ)
  · simp only [h, if_pos, List.flatMap_eq_nil_iff]
    intro l hl
    exact scanCell_eq_nil ..
  · simp only [h, if_neg, not_false_iff, List.flatMap_eq_nil_iff]
    intro c hc
    rcases hfind : g.findCell (c + locToCoords cs g.origin origin) with _ | cell <;>
      simp [hfind, scanCell_eq_nil]

/-! ## The segment traversal (`SpatialGridLineTrace.h`) -/

/-- `SpatialGrid::QueryResult`. -/
structure QueryRes where
  blockingHit : Bool
  location : Vec3
  impactPoint : Vec3
  impactNormal : Vec3
  elementId : ElementId
deriving DecidableEq

/-- `QueryResult` default member values. -/
def QueryRes.empty : QueryRes :=
  ⟨false, invalidLocation, invalidLocation, Vec3.zero, ElementId.null⟩

/-- The data members of `TLineTrace`. -/
structure LineTraceData where
  lstart : Vec3
  lend : Vec3
  dir : Vec3
  invDir : Vec3
  delta : Vec3
  step : CellIndex
deriving DecidableEq

/-- The `(start, direction, length)` constructor of `TLineTrace`. -/
def mkLineTrace (cs : ℚ) (start dir : Vec3) (len : ℚ) : LineTraceData :=
  let invDir := dir.reciprocal
  { lstart := start
    lend := start + dir.scale len
    dir := dir
    invDir := invDir
    delta := ⟨|cs * invDir.x|, |cs * invDir.y|, |cs * invDir.z|⟩
    step := ⟨if dir.x > 0 then 1 else -1, if dir.y > 0 then 1 else -1,
             if dir.z > 0 then 1 else -1⟩ }

/-- `TLineTrace::CalculateMaxSteps`. -/
def calculateMaxSteps (cs : ℚ) (t : LineTraceData) (hitPoint : Vec3) : ℤ :=
  let d := t.lend - hitPoint
  ⌈|d.x| / cs⌉ + ⌈|d.y| / cs⌉ + ⌈|d.z| / cs⌉ + 1

/-- `TLineTrace::Progress`: step across the axis whose `t_max` is smallest
(ties broken x before y before z). -/
def progress (t : LineTraceData) (currentCell : CellIndex) (tMax : Vec3) :
    CellIndex × Vec3 :=
  if tMax.x < tMax.y ∧ tMax.x < tMax.z then
    (⟨currentCell.x + t.step.x, currentCell.y, currentCell.z⟩,
     ⟨tMax.x + t.delta.x, tMax.y, tMax.z⟩)
  else if tMax.y < tMax.z then
    (⟨currentCell.x, currentCell.y + t.step.y, currentCell.z⟩,
     ⟨tMax.x, tMax.y + t.delta.y, tMax.z⟩)
  else
    (⟨currentCell.x, currentCell.y, currentCell.z + t.step.z⟩,
     ⟨tMax.x, tMax.y, tMax.z + t.delta.z⟩)

/-- The `scan_element` accumulator of `CheckClosest`: fold the closest-hit
update over the `(id, element)` pairs a cell hands to the visitor. -/
def scanClosest {α : Type} (sqrtFn : ℚ → ℚ) (t : LineTraceData)
    (pairs : List (ElementId × Element α)) (closest : QueryRes) : QueryRes :=
  pairs.foldl (fun acc p =>
    match p.2.bounds.lineHitPoint sqrtFn t.lstart t.lend t.dir t.invDir with
    | some hitLoc =>
        if ¬ acc.blockingHit ∨
            distSquared t.lstart hitLoc < distSquared t.lstart acc.impactPoint then
          { acc with
              blockingHit := true
              location := hitLoc
              impactPoint := hitLoc
              elementId := p.1 }
        else acc
    | none => acc) closest

/-- `TLineTrace::CheckClosest`.  Faithful to the source, including the
offset being applied twice: `CellRange(1).ForEach(offset, f)` already adds
`offset` to each enumerated index, and `f` adds `offset` again when forming
`coords`. -/
def checkClosest {α : Type} (cs : ℚ) (g : Grid α) (junk : CellIndex → Box)
    (sqrtFn : ℚ → ℚ) (t : LineTraceData) (offset : CellIndex)
    (checkedCells : List CellIndex) (closest : QueryRes) :
    List CellIndex × QueryRes :=
  let closest0 := { closest with location := t.lend }
  (cellRangeList 1).foldl (fun acc d =>
    let index := d + offset
    let coords := index + offset
    if coords ∈ acc.1 then acc
    else
      let res :=
        match g.findCell coords with
        | some cell =>
            if cell.hasElements ∧
                lineIntersectsBox (cellGetBounds cell junk coords) t.lstart t.invDir then
              scanClosest sqrtFn t (cellEmit g cell.elems) acc.2
            else acc.2
        | none => acc.2
      (acc.1 ++ [coords], res)) (checkedCells, closest0)

/-- The stepping loop of `TLineTrace::Single`, with the step budget as
fuel: sweep the neighbourhood, stop on a blocking hit, on reaching the end
cell, or on leaving the envelope, otherwise advance the DDA. -/
def singleLoop {α : Type} (cs : ℚ) (g : Grid α) (junk : CellIndex → Box)
    (sqrtFn : ℚ → ℚ) (t : LineTraceData) (endCell : CellIndex) :
    ℕ → List CellIndex → CellIndex → Vec3 → QueryRes → QueryRes
  | 0, _, _, _, res => res
  | n + 1, checkedCells, currentCell, tMax, res =>
    let swept := checkClosest cs g junk sqrtFn t currentCell checkedCells res
    if swept.2.blockingHit ∨ currentCell = endCell ∨
        ¬ g.isCellWithinBounds cs currentCell then swept.2
    else
      let adv := progress t currentCell tMax
      singleLoop cs g junk sqrtFn t endCell n swept.1 adv.1 adv.2 swept.2

/-- `TLineTrace::Single`. -/
def single {α : Type} (cs : ℚ) (g : Grid α) (junk : CellIndex → Box)
    (sqrtFn : ℚ → ℚ) (t : LineTraceData) : QueryRes :=
  match g.envelope with
  | none => QueryRes.empty
  | some env =>
    match lineBoxHitPoint env t.lstart t.lend t.dir t.invDir with
    | none => QueryRes.empty
    | some hitPoint =>
      let currentCell := locToCoords cs g.origin hitPoint
      let startCellOrigin := cellCenter cs g.origin currentCell
      let t1 := ((startCellOrigin - cellExtent cs) - hitPoint).cmul t.invDir
      let t2 := ((startCellOrigin + cellExtent cs) - hitPoint).cmul t.invDir
      let endCell := locToCoords cs g.origin t.lend
      let tMax := t1.vmax t2
      let first :=
        if hitPoint ≠ t.lstart then progress t currentCell tMax
        else (currentCell, tMax)
      let maxSteps := (calculateMaxSteps cs t hitPoint).toNat
      singleLoop cs g junk sqrtFn t endCell maxSteps [] first.1 first.2 QueryRes.empty

/-- `scan_element` over an empty pair list leaves the result unchanged. -/
theorem scanClosest_nil {α : Type} (sqrtFn : ℚ → ℚ) (t : LineTraceData)
    (closest : QueryRes) : scanClosest (α := α) sqrtFn t [] closest = closest := rfl

/-- `CheckClosest` can only retarget `Location`: since every cell's element
projection is empty, the fold never flips `BlockingHit`. -/
theorem checkClosest_blockingHit {α : Type} (cs : ℚ) (g : Grid α)
    (junk : CellIndex → Box) (sqrtFn : ℚ → ℚ) (t : LineTraceData)
    (offset : CellIndex) (checkedCells : List CellIndex) (closest : QueryRes) :
    (checkClosest cs g junk sqrtFn t offset checkedCells closest).2.blockingHit =
      closest.blockingHit := by
  unfold checkClosest
  have main : ∀ (l : List CellIndex) (acc : List CellIndex × QueryRes),
      (l.foldl (fun acc d =>
        let index := d + offset
        let coords := index + offset
        if coords ∈ acc.1 then acc
        else
          let res :=
            match g.findCell coords with
            | some cell =>
                if cell.hasElements ∧
                    lineIntersectsBox (cellGetBounds cell junk coords) t.lstart t.invDir then
                  scanClosest sqrtFn t (cellEmit g cell.elems) acc.2
                else acc.2
            | none => acc.2
          (acc.1 ++ [coords], res)) acc).2.blockingHit = acc.2.blockingHit := by
    intro l
    induction l with
    | nil => intro acc; rfl
    | cons d rest ih =>
      intro acc
      rw [List.foldl_cons, ih]
      by_cases hmem : d + offset + offset ∈ acc.1
      · simp [hmem]
      · rcases hfind : g.findCell (d + offset + offset) with _ | cell <;>
          simp [hmem, hfind, cellEmit_eq_nil, scanClosest_nil]
  rw [main]

/-- The whole stepping loop preserves a hit-free result. -/
theorem singleLoop_blockingHit {α : Type} (cs : ℚ) (g : Grid α)
    (junk : CellIndex → Box) (sqrtFn : ℚ → ℚ) (t : LineTraceData)
    (endCell : CellIndex) (n : ℕ) (checkedCells : List CellIndex)
    (currentCell : CellIndex) (tMax : Vec3) (res : QueryRes)
    (h : res.blockingHit = false) :
    (singleLoop cs g junk sqrtFn t endCell n checkedCells currentCell tMax
      res).blockingHit = false := by
  induction n generalizing checkedCells currentCell tMax res with
  | zero => exact h
  | succ n ih =>
    rw [singleLoop]
    have hswept := checkClosest_blockingHit cs g junk sqrtFn t currentCell checkedCells res
    by_cases hstop : (checkClosest cs g junk sqrtFn t currentCell checkedCells res).2.blockingHit = true ∨
        currentCell = endCell ∨ ¬ g.isCellWithinBounds cs currentCell = true
    · simp only [hstop, if_pos]
      rw [hswept, h]
    · simp only [hstop, if_neg, not_false_iff]
      exact ih _ _ _ _ (by rw [hswept, h])

/-- `TLineTrace::Single` never reports a hit, whatever the grid and segment:
every per-cell element sweep is routed through the broken `ApplyAt`. -/
theorem single_blockingHit_false {α : Type} (cs : ℚ) (g : Grid α)
    (junk : CellIndex → Box) (sqrtFn : ℚ → ℚ) (t : LineTraceData) :
    (single cs g junk sqrtFn t).blockingHit = false := by
  unfold single
  rcases g.envelope with _ | env
  · rfl
  · simp only []
    rcases lineBoxHitPoint env t.lstart t.lend t.dir t.invDir with _ | hitPoint
    · rfl
    · exact singleLoop_blockingHit cs g junk sqrtFn t _ _ _ _ _ _ rfl

/-! ## Concrete states used by the claims -/

/-- A single insertion into an empty slot map: payload `7`, id `(0, 1)`. -/
def smOne : SlotMap ℕ := (SlotMap.empty.insert 7).2

def smOneId : ElementId := (SlotMap.empty.insert 7).1

/-- `smOne` after removing its only element. -/
def smFreed : SlotMap ℕ := (smOne.remove smOneId).2

/-- Re-inserting after the removal (the insert that goes wrong). -/
def smReused : SlotMap ℕ := (smFreed.insert 8).2

def smReusedId : ElementId := (smFreed.insert 8).1

/-- Scenario 1 of the spec: cell size 100, origin `(0,0,0)`, one sphere
element of radius 5 at `(10,10,10)`. -/
def scenarioBounds : Bounds := ⟨⟨10, 10, 10⟩, .sphere 5⟩

def scenarioGrid : Grid ℕ := ((Grid.emptyGrid).addElement 100 scenarioBounds 0).2

def scenarioId : ElementId := ((Grid.emptyGrid).addElement 100 scenarioBounds 0).1

def scenarioQuery : SphereQueryCached := buildCached 100 10

/-- A fixed stand-in for the indeterminate default-constructed `FBox` (used
where a closed statement needs one explicit junk value). -/
def zeroJunk : CellIndex → Box := fun _ => ⟨Vec3.zero, Vec3.zero⟩

/-- Grid for the line-trace claim: one sphere element of radius 45 at
`(160,0,0)`, i.e. cell `(2,0,0)`. -/
def traceBounds : Bounds := ⟨⟨160, 0, 0⟩, .sphere 45⟩

def traceGrid : Grid ℕ := ((Grid.emptyGrid).addElement 100 traceBounds 0).2

/-- A segment starting at `(151,0,0)` — inside the element's sphere and
inside the grid envelope — heading along `+x` for 849 units. -/
def traceData : LineTraceData := mkLineTrace 100 ⟨151, 0, 0⟩ ⟨1, 0, 0⟩ 849

/-! ## Claim theorems: the slot map (C1, C2, C7) -/

/-- Claim C1: `ApplyAt(id, visitor)` should invoke the visitor exactly once
with `(id, payload)` when `id` is live, and be a no-op otherwise.  The code
instead early-returns whenever `id.Index` is in range, so for a live id —
here the id `(0,1)` of the only element of `smOne`, whose `Get` succeeds —
the visitor is never invoked. -/
theorem c1_applyAt_skips_live_id :
    smOneId = ⟨0, 1⟩ ∧ smOne.get smOneId = some 7 ∧ smOne.applyAt smOneId = none := by
  decide

/-- Claim C2: immediately after any `Insert`, `Get` on the returned id
should succeed.  After `insert 7; remove; insert 8` the second insert
returns id `(0,1)` (the free-list head index paired with version 1) while
the slot pushed for it sits at index 1, so `Get` on the freshly returned id
finds slot 0 vacant and fails. -/
theorem c2_get_fails_after_reinsert :
    (smOne.remove smOneId).1 = some 7 ∧ smReusedId = ⟨0, 1⟩ ∧
      smReused.get smReusedId = none := by
  decide

/-- Claim C7: `Contains(id)` should hold iff `Get(id)` is non-null.  The
version comparison in `Contains` is negated, so the live id of `smOne` has a
succeeding `Get` but a false `Contains`. -/
theorem c7_contains_contradicts_get :
    smOne.contains smOneId = false ∧ smOne.get smOneId = some 7 := by
  decide

/-! ## Claim theorems: the cell box (C5) -/

/-- Claim C5: a cell's `GetBounds()` should equal the cell's geometric
bounds.  After the insert that creates cell `(0,0,0)` the cell's box member
is still in its default-constructed state (`none`: no code path ever
assigns it), while the geometric bounds of the cell are the definite box
`[(-50,-50,-50), (50,50,50)]`. -/
theorem c5_cell_box_never_assigned :
    scenarioGrid.findCell ⟨0, 0, 0⟩ = some ⟨[scenarioId], none⟩ ∧
      cellGeomBox 100 Vec3.zero ⟨0, 0, 0⟩ = ⟨⟨-50, -50, -50⟩, ⟨50, 50, 50⟩⟩ := by
  with_unfolding_all decide

/-! ## Claim theorems: spec scenario 1 (C3) -/

/-- Claim C3 counterexample: the sphere query of radius 10 at `(20,20,20)`
does not emit the id of the element at `(10,10,10)` — it emits nothing. -/
theorem c3_scenario_emits_nothing_cex :
    (cachedEach 100 scenarioQuery scenarioGrid zeroJunk ⟨20, 20, 20⟩).map Prod.fst ≠
      [scenarioId] := by
  rw [cachedEach_eq_nil]
  decide

/-- Claim C3 amended: the insert does land in cell `(0,0,0)`, but the query
emits nothing, for two independent reasons: the element's bounds do not
overlap the query sphere (`dist² = 300 > 15² = 225`), and every element
visit goes through the broken `ApplyAt`, which suppresses all emission on
the cached and on-demand paths alike. -/
theorem c3_scenario_amended (junk : CellIndex → Box) :
    locToCoords 100 Vec3.zero ⟨10, 10, 10⟩ = ⟨0, 0, 0⟩ ∧
      (scenarioGrid.elements.get scenarioId).map (fun e => e.cell) = some ⟨0, 0, 0⟩ ∧
      scenarioBounds.overlapsSphere ⟨20, 20, 20⟩ 10 = false ∧
      cachedEach 100 scenarioQuery scenarioGrid junk ⟨20, 20, 20⟩ = [] ∧
      uncachedEach 100 10 scenarioGrid junk ⟨20, 20, 20⟩ = [] :=
  ⟨by with_unfolding_all decide, by with_unfolding_all decide,
    by with_unfolding_all decide, cachedEach_eq_nil .., uncachedEach_eq_nil ..⟩

/-! ## Claim theorems: the single line trace (C4) -/

/-- Claim C4: the single trace should return the blocking hit of minimum
distance whenever some element intersects the segment.  Here the element of
`traceGrid` contains the segment start, so its surface is hit at the start
point itself, yet `Single` reports no blocking hit: `CheckClosest` iterates
cell contents through the broken `ApplyAt` (and on top of that sweeps the
3×3×3 cube around `offset + offset` instead of `offset`, and `Single`
breaks out of the walk on the first `BlockingHit`). -/
theorem c4_single_misses_intersecting_element (junk : CellIndex → Box)
    (sqrtFn : ℚ → ℚ) :
    traceBounds.lineHitPoint sqrtFn traceData.lstart traceData.lend traceData.dir
        traceData.invDir = some ⟨151, 0, 0⟩ ∧
      (single 100 traceGrid junk sqrtFn traceData).blockingHit = false :=
  ⟨by with_unfolding_all rfl, single_blockingHit_false 100 traceGrid junk sqrtFn traceData⟩

/-! ## Claim theorems: non-positive radius (C9) -/

/-- Claim C9: a sphere query with radius ≤ 0 emits nothing, on the cached
path, the on-demand path and (since both reduce to it when the precomputed
cube is larger than the cell table) the iterate-every-cell fallback.  The
conclusion holds for every radius — the broken `ApplyAt` suppresses all
emission — so in particular for non-positive ones. -/
theorem c9_nonpositive_radius_emits_nothing {α : Type} (cs radius : ℚ)
    (g : Grid α) (junk : CellIndex → Box) (origin : Vec3) (hr : radius ≤ 0) :
    cachedEach cs (buildCached cs radius) g junk origin = [] ∧
      uncachedEach cs radius g junk origin = [] :=
  ⟨cachedEach_eq_nil .., uncachedEach_eq_nil ..⟩

/-- Witness for C9 at radius `-5` on the scenario grid. -/
theorem c9_witness :
    ((-5 : ℚ) ≤ 0) ∧
      (cachedEach 100 (buildCached 100 (-5)) scenarioGrid zeroJunk Vec3.zero = [] ∧
        uncachedEach 100 (-5) scenarioGrid zeroJunk Vec3.zero = []) :=
  ⟨by norm_num,
    c9_nonpositive_radius_emits_nothing 100 (-5) scenarioGrid zeroJunk Vec3.zero
      (by norm_num)⟩

/-! ## Claim theorems: at-most-once emission (C10) -/

theorem intRange_nodup (lo hi : ℤ) : (intRange lo hi).Nodup := by
  rw [intRange]
  refine List.Nodup.map ?_ (List.nodup_range _)
  intro a b hab
  simp only at hab
  omega

theorem mem_intRange {a lo hi : ℤ} : a ∈ intRange lo hi ↔ lo ≤ a ∧ a ≤ hi := by
  simp only [intRange, List.mem_map, List.mem_range]
  constructor
  · rintro ⟨i, hi', rfl⟩
    omega
  · rintro ⟨h1, h2⟩
    exact ⟨(a - lo).toNat, by omega, by omega⟩

theorem mem_cellRangeList {c : CellIndex} {s : ℤ} :
    c ∈ cellRangeList s ↔
      -s ≤ c.x ∧ c.x ≤ s ∧ -s ≤ c.y ∧ c.y ≤ s ∧ -s ≤ c.z ∧ c.z ≤ s := by
  simp only [cellRangeList, List.mem_flatMap, List.mem_map, mem_intRange]
  constructor
  · rintro ⟨z, ⟨hz1, hz2⟩, y, ⟨hy1, hy2⟩, x, ⟨hx1, hx2⟩, rfl⟩
    exact ⟨hx1, hx2, hy1, hy2, hz1, hz2⟩
  · rintro ⟨hx1, hx2, hy1, hy2, hz1, hz2⟩
    exact ⟨c.z, ⟨hz1, hz2⟩, c.y, ⟨hy1, hy2⟩, c.x, ⟨hx1, hx2⟩, rfl⟩

theorem cellRangeList_nodup (s : ℤ) : (cellRangeList s).Nodup := by
  rw [cellRangeList, List.nodup_flatMap]
  constructor
  · intro z hz
    rw [List.nodup_flatMap]
    constructor
    · intro y hy
      refine List.Nodup.map ?_ (intRange_nodup _ _)
      intro a b hab
      exact congrArg CellIndex.x hab
    · refine (intRange_nodup _ _).pairwise_of_forall_ne fun y1 h1 y2 h2 hne => ?_
      rw [Function.onFun, List.disjoint_left]
      intro a ha ha'
      simp only [List.mem_map, mem_intRange] at ha ha'
      obtain ⟨x1, -, rfl⟩ := ha
      obtain ⟨x2, -, heq⟩ := ha'
      exact hne (congrArg CellIndex.y heq).symm
  · refine (intRange_nodup _ _).pairwise_of_forall_ne fun z1 h1 z2 h2 hne => ?_
    rw [Function.onFun, List.disjoint_left]
    intro a ha ha'
    simp only [List.mem_flatMap, List.mem_map, mem_intRange] at ha ha'
    obtain ⟨y1, -, x1, -, rfl⟩ := ha
    obtain ⟨y2, -, x2, -, heq⟩ := ha'
    exact hne (congrArg CellIndex.z heq).symm

/-- The classification loop of `BuildCached` splits its input into the three
filters of the mutually exclusive tests, in input order. -/
theorem classify_foldl (cs radius : ℚ) (b : ℤ) (l : List CellIndex)
    (q : SphereQueryCached) :
    l.foldl (classifyStep cs radius b) q =
      ⟨q.radius,
       q.innerCells ++ l.filter (fun c => innerTest cs radius c),
       q.edgeCells ++ l.filter (fun c => !(innerTest cs radius c) && edgeTest b c),
       q.outerCells ++ l.filter (fun c => !(innerTest cs radius c) && !(edgeTest b c))⟩ := by
  induction l generalizing q with
  | nil => simp
  | cons a rest ih =>
    rw [List.foldl_cons, ih]
    by_cases h1 : innerTest cs radius a <;> by_cases h2 : edgeTest b a <;>
      simp [classifyStep, h1, h2]

theorem buildCached_eq (cs radius : ℚ) :
    buildCached cs radius =
      ⟨radius,
       (cellRangeList |roundToInt32 (radius / cs) + 1|).filter
         (fun c => innerTest cs radius c),
       (cellRangeList |roundToInt32 (radius / cs) + 1|).filter
         (fun c => !(innerTest cs radius c) && edgeTest (roundToInt32 (radius / cs) + 1) c),
       (cellRangeList |roundToInt32 (radius / cs) + 1|).filter
         (fun c => !(innerTest cs radius c) &&
           !(edgeTest (roundToInt32 (radius / cs) + 1) c))⟩ := by
  rw [buildCached, classify_foldl]
  simp

/-- The concatenation of the three offset lists of a cached query. -/
def allOffsets (cs radius : ℚ) : List CellIndex :=
  (buildCached cs radius).innerCells ++ (buildCached cs radius).edgeCells ++
    (buildCached cs radius).outerCells

/-- Claim C10: during one query invocation the visitor fires at most once
per live element.  The inner, edge and outer lists produced by the cached
builder partition the offset cube with no offset appearing twice, so the
cells looked up (`offset + c`) are pairwise distinct; and the emission list
of either path carries no duplicate ids (trivially so in the code as it
stands, since the broken `ApplyAt` suppresses all emission). -/
theorem c10_visitor_at_most_once_per_element {α : Type} (cs radius : ℚ)
    (offset : CellIndex) (g : Grid α) (junk : CellIndex → Box) (origin : Vec3) :
    (allOffsets cs radius).Nodup ∧
      (∀ c, c ∈ allOffsets cs radius ↔
        c ∈ cellRangeList |roundToInt32 (radius / cs) + 1|) ∧
      ((allOffsets cs radius).map (· + offset)).Nodup ∧
      ((cachedEach cs (buildCached cs radius) g junk origin).map Prod.fst).Nodup ∧
      ((uncachedEach cs radius g junk origin).map Prod.fst).Nodup := by
  have hnodup : (allOffsets cs radius).Nodup := by
    rw [allOffsets, buildCached_eq]
    have hL := cellRangeList_nodup |roundToInt32 (radius / cs) + 1|
    refine List.Nodup.append (List.Nodup.append ?_ ?_ ?_) ?_ ?_
    · exact hL.filter _
    · exact hL.filter _
    · rw [List.disjoint_left]
      intro a ha ha'
      rw [List.mem_filter] at ha ha'
      rcases ha with ⟨-, h1⟩
      rcases ha' with ⟨-, h2⟩
      simp only [Bool.and_eq_true, Bool.not_eq_true'] at h2
      rw [h2.1] at h1
      exact Bool.false_ne_true h1
    · exact hL.filter _
    · rw [List.disjoint_left]
      intro a ha ha'
      rw [List.mem_append, List.mem_filter, List.mem_filter] at ha
      rw [List.mem_filter] at ha'
      rcases ha' with ⟨-, h3⟩
      simp only [Bool.and_eq_true, Bool.not_eq_true'] at h3
      rcases ha with ⟨-, h1⟩ | ⟨-, h2⟩
      · rw [h3.1] at h1
        exact Bool.false_ne_true h1
      · simp only [Bool.and_eq_true, Bool.not_eq_true'] at h2
        rw [h3.2] at h2
        exact Bool.false_ne_true h2.2
  refine ⟨hnodup, fun c => ?_, ?_, ?_, ?_⟩
  · rw [allOffsets, buildCached_eq]
    simp only [List.mem_append, List.mem_filter]
    constructor
    · rintro ((⟨h, -⟩ | ⟨h, -⟩) | ⟨h, -⟩) <;> exact h
    · intro h
      by_cases h1 : innerTest cs radius c
      · exact Or.inl (Or.inl ⟨h, h1⟩)
      · by_cases h2 : edgeTest (roundToInt32 (radius / cs) + 1) c
        · exact Or.inl (Or.inr ⟨h, by simp [h1, h2]⟩)
        · exact Or.inr ⟨h, by simp [h1, h2]⟩
  · refine hnodup.map ?_
    intro a b hab
    obtain ⟨ox, oy, oz⟩ := offset
    rcases a with ⟨ax, ay, az⟩
    rcases b with ⟨bx, bym, bz⟩
    have hx : ax + ox = bx + ox := congrArg CellIndex.x hab
    have hy : ay + oy = bym + oy := congrArg CellIndex.y hab
    have hz : az + oz = bz + oz := congrArg CellIndex.z hab
    simp only [CellIndex.mk.injEq]
    refine ⟨by omega, by omega, by omega⟩
  · rw [cachedEach_eq_nil]
    exact List.nodup_nil
  · rw [uncachedEach_eq_nil]
    exact List.nodup_nil

/-! ## Claim theorems: inner-cell classification (C6) -/

/-- Grid for the C6 counterexample: one sphere element of radius 40 at
`(40,0,0)`, cell `(0,0,0)` with cell size 100. -/
def c6Bounds : Bounds := ⟨⟨40, 0, 0⟩, .sphere 40⟩

def c6Grid : Grid ℕ := ((Grid.emptyGrid).addElement 100 c6Bounds 0).2

def c6Id : ElementId := ((Grid.emptyGrid).addElement 100 c6Bounds 0).1

/-- Claim C6 counterexample: for the cached query of radius `-10` the offset
`(0,0,0)` is classified inner (the squared effective radius
`(-10 - half_diagonal)²` exceeds the farthest-corner distance 7500), the
query origin `(-40,0,0)` falls in cell `(0,0,0)`, which holds a live
element, and that element's bounds do not overlap the query sphere:
emitting it without a per-element test is a false positive. -/
theorem c6_inner_false_positive_cex :
    innerTest 100 (-10) ⟨0, 0, 0⟩ = true ∧
      (⟨0, 0, 0⟩ : CellIndex) ∈ (buildCached 100 (-10)).innerCells ∧
      locToCoords 100 Vec3.zero ⟨-40, 0, 0⟩ = ⟨0, 0, 0⟩ ∧
      c6Grid.findCell ⟨0, 0, 0⟩ = some ⟨[c6Id], none⟩ ∧
      c6Grid.elements.get c6Id = some ⟨⟨0, 0, 0⟩, c6Bounds, 0⟩ ∧
      c6Bounds.overlapsSphere ⟨-40, 0, 0⟩ (-10) = false := by
  with_unfolding_all decide

/-- The radius inflation factor `1 + 2⁻⁴⁰` of the amended claim C6; it
absorbs the deficit of the compile-time double `FMath::Sqrt(3.0)`, which is
below the real `√3` by about `2⁻⁵²`. -/
def radiusSlack : ℚ := 1 + 1 / 2 ^ 40

/-- Nonnegative element shape: sphere radius or box extents at least 0. -/
def shapeNonneg : BShape → Bool
  | .box extent => decide (0 ≤ extent.x ∧ 0 ≤ extent.y ∧ 0 ≤ extent.z)
  | .sphere radius => decide (0 ≤ radius)

/-- `roundToInt32` brackets its argument within a half-open unit window. -/
theorem roundToInt32_bound (a : ℚ) :
    (roundToInt32 a : ℚ) - 1 / 2 ≤ a ∧ a < (roundToInt32 a : ℚ) + 1 / 2 := by
  rw [roundToInt32_eq_intFloor]
  constructor
  · have h := Int.floor_le (a + 1 / 2)
    push_cast at h ⊢
    linarith
  · have h := Int.lt_floor_add_one (a + 1 / 2)
    push_cast at h ⊢
    linarith

/-- If `t / cs` rounds to `k` then `t` lies within half a cell of
`k * cs`. -/
theorem round_div_bound {t cs : ℚ} {k : ℤ} (hcs : 0 < cs)
    (h : roundToInt32 (t / cs) = k) : |t - k * cs| ≤ cs / 2 := by
  have hb := roundToInt32_bound (t / cs)
  rw [h] at hb
  obtain ⟨h1, h2⟩ := hb
  have h1' : ((k : ℚ) - 1 / 2) * cs ≤ t := by
    calc ((k : ℚ) - 1 / 2) * cs ≤ t / cs * cs := by
          exact mul_le_mul_of_nonneg_right h1 (le_of_lt hcs)
      _ = t := by field_simp
  have h2' : t < ((k : ℚ) + 1 / 2) * cs := by
    calc t = t / cs * cs := by field_simp
      _ < ((k : ℚ) + 1 / 2) * cs := by
          exact mul_lt_mul_of_pos_right h2 hcs
  rw [abs_le]
  constructor <;> nlinarith

/-- Square bound against the farthest-corner coordinate on one axis. -/
theorem axis_farthest_bound {cs e : ℚ} (hcs : 0 < cs) (a : ℚ) (he : |e| ≤ cs / 2) :
    (a + e) * (a + e) ≤
      (if 0 < a then a + cs / 2 else a - cs / 2) * (if 0 < a then a + cs / 2 else a - cs / 2) := by
  rw [abs_le] at he
  obtain ⟨he1, he2⟩ := he
  by_cases h : 0 < a
  · rw [if_pos h]
    nlinarith
  · rw [if_neg h]
    push_neg at h
    nlinarith

/-- The farthest-corner coordinate is at least half a cell in magnitude. -/
theorem axis_farthest_lower {cs : ℚ} (hcs : 0 < cs) (a : ℚ) :
    cs / 2 * (cs / 2) ≤
      (if 0 < a then a + cs / 2 else a - cs / 2) * (if 0 < a then a + cs / 2 else a - cs / 2) := by
  by_cases h : 0 < a
  · rw [if_pos h]
    nlinarith
  · rw [if_neg h]
    push_neg at h
    nlinarith

/-- The exact double of `√3` is below `√3`: its square is less than 3. -/
theorem sqrtThreeDouble_sq_lt : sqrtThreeDouble * sqrtThreeDouble < 3 := by
  rw [sqrtThreeDouble]
  norm_num

/-- But inflated by the slack factor it clears `√3`. -/
theorem sqrtThreeDouble_slack_sq : 3 ≤ (sqrtThreeDouble * radiusSlack) * (sqrtThreeDouble * radiusSlack) := by
  rw [sqrtThreeDouble, radiusSlack]
  norm_num

/-- Three-dimensional Cauchy–Schwarz assembly: if the two square sums are
bounded by `X²` and `Y²` then the difference's square sum is bounded by
`(X + Y)²`. -/
theorem sum_sq_bound (v1 v2 v3 d1 d2 d3 X Y : ℝ)
    (hA : v1 ^ 2 + v2 ^ 2 + v3 ^ 2 ≤ X ^ 2) (hB : d1 ^ 2 + d2 ^ 2 + d3 ^ 2 ≤ Y ^ 2)
    (hX : 0 ≤ X) (hY : 0 ≤ Y) :
    (v1 - d1) ^ 2 + (v2 - d2) ^ 2 + (v3 - d3) ^ 2 ≤ (X + Y) ^ 2 := by
  have hA0 : (0 : ℝ) ≤ v1 ^ 2 + v2 ^ 2 + v3 ^ 2 := by positivity
  have hB0 : (0 : ℝ) ≤ d1 ^ 2 + d2 ^ 2 + d3 ^ 2 := by positivity
  have cauchy : (v1 * d1 + v2 * d2 + v3 * d3) ^ 2 ≤
      (v1 ^ 2 + v2 ^ 2 + v3 ^ 2) * (d1 ^ 2 + d2 ^ 2 + d3 ^ 2) := by
    nlinarith [sq_nonneg (v1 * d2 - v2 * d1), sq_nonneg (v1 * d3 - v3 * d1),
      sq_nonneg (v2 * d3 - v3 * d2)]
  have hAB : (v1 ^ 2 + v2 ^ 2 + v3 ^ 2) * (d1 ^ 2 + d2 ^ 2 + d3 ^ 2) ≤ (X * Y) ^ 2 := by
    nlinarith [mul_le_mul hA hB hB0 (by positivity : (0:ℝ) ≤ X ^ 2)]
  have hXY : 0 ≤ X * Y := mul_nonneg hX hY
  have habs : -(X * Y) ≤ v1 * d1 + v2 * d2 + v3 * d3 := by
    nlinarith [cauchy.trans hAB, sq_nonneg (v1 * d1 + v2 * d2 + v3 * d3 + X * Y)]
  nlinarith [habs]

set_option maxHeartbeats 2000000 in
/-- Core inequality for amended claim C6, over plain rationals: if each
axis contribution is dominated by a farthest-corner coordinate `f●`, each
`f●` is at least half a cell, the query-origin offsets `d●` are at most half
a cell, and the farthest corner passes the inner test, then the squared
distance is at most `(radius * radiusSlack)²`. -/
theorem c6_core (cs radius vx vy vz dx dy dz fx fy fz : ℚ)
    (hcs : 0 < cs) (hr : 0 < radius)
    (hfx : vx * vx ≤ fx * fx) (hfy : vy * vy ≤ fy * fy) (hfz : vz * vz ≤ fz * fz)
    (hl1 : cs / 2 * (cs / 2) ≤ fx * fx) (hl2 : cs / 2 * (cs / 2) ≤ fy * fy)
    (hl3 : cs / 2 * (cs / 2) ≤ fz * fz)
    (hdx : |dx| ≤ cs / 2) (hdy : |dy| ≤ cs / 2) (hdz : |dz| ≤ cs / 2)
    (hinner : fx * fx + fy * fy + fz * fz ≤
      (radius - halfDiagonal cs) * (radius - halfDiagonal cs)) :
    (vx - dx) * (vx - dx) + (vy - dy) * (vy - dy) + (vz - dz) * (vz - dz) ≤
      (radius * radiusSlack) * (radius * radiusSlack) := by
  have hdx2 : dx * dx ≤ cs / 2 * (cs / 2) := by
    have h := mul_self_le_mul_self (abs_nonneg dx) hdx
    rwa [abs_mul_abs_self] at h
  have hdy2 : dy * dy ≤ cs / 2 * (cs / 2) := by
    have h := mul_self_le_mul_self (abs_nonneg dy) hdy
    rwa [abs_mul_abs_self] at h
  have hdz2 : dz * dz ≤ cs / 2 * (cs / 2) := by
    have h := mul_self_le_mul_self (abs_nonneg dz) hdz
    rwa [abs_mul_abs_self] at h
  clear hdx hdy hdz
  have hA : vx ^ 2 + vy ^ 2 + vz ^ 2 ≤ (radius - halfDiagonal cs) ^ 2 := by
    nlinarith [hfx, hfy, hfz, hinner]
  have hB : dx ^ 2 + dy ^ 2 + dz ^ 2 ≤ 3 * (cs / 2) ^ 2 := by
    nlinarith [hdx2, hdy2, hdz2]
  have hhd : halfDiagonal cs = cs / 2 * sqrtThreeDouble := rfl
  have hs3pos : (0 : ℚ) < sqrtThreeDouble := by rw [sqrtThreeDouble]; norm_num
  rcases le_or_lt radius (halfDiagonal cs) with hcase | hcase
  · exfalso
    have hsq := sqrtThreeDouble_sq_lt
    have hhd2 : halfDiagonal cs * halfDiagonal cs < 3 * (cs / 2 * (cs / 2)) := by
      rw [hhd]
      nlinarith
    have hhr : 0 ≤ halfDiagonal cs - radius := by linarith
    have hlt : halfDiagonal cs - radius < halfDiagonal cs := by linarith
    have hsq2 : (halfDiagonal cs - radius) * (halfDiagonal cs - radius) <
        halfDiagonal cs * halfDiagonal cs := mul_self_lt_mul_self hhr hlt
    have hflip : (radius - halfDiagonal cs) * (radius - halfDiagonal cs) =
        (halfDiagonal cs - radius) * (halfDiagonal cs - radius) := by ring
    linarith [hinner, hl1, hl2, hl3, hhd2, hsq2, hflip]
  · have hXq : 0 < radius - halfDiagonal cs := by linarith
    -- cast the square-sum bounds to the reals
    have hAr : ((vx : ℝ)) ^ 2 + ((vy : ℝ)) ^ 2 + ((vz : ℝ)) ^ 2 ≤
        (((radius : ℝ)) - ((halfDiagonal cs : ℝ))) ^ 2 := by
      have h := hA
      have hcast : (((vx ^ 2 + vy ^ 2 + vz ^ 2 : ℚ)) : ℝ) ≤
          (((radius - halfDiagonal cs) ^ 2 : ℚ) : ℝ) := by exact_mod_cast h
      push_cast at hcast
      linarith
    have hBr : ((dx : ℝ)) ^ 2 + ((dy : ℝ)) ^ 2 + ((dz : ℝ)) ^ 2 ≤
        (Real.sqrt 3 * (((cs : ℝ)) / 2)) ^ 2 := by
      have hY2 : (Real.sqrt 3 * (((cs : ℝ)) / 2)) ^ 2 = 3 * (((cs : ℝ)) / 2) ^ 2 := by
        rw [mul_pow, Real.sq_sqrt (by norm_num : (0:ℝ) ≤ 3)]
      rw [hY2]
      have hcast : (((dx ^ 2 + dy ^ 2 + dz ^ 2 : ℚ)) : ℝ) ≤
          ((3 * (cs / 2) ^ 2 : ℚ) : ℝ) := by exact_mod_cast hB
      push_cast at hcast
      linarith
    have hXnn : (0 : ℝ) ≤ ((radius : ℝ)) - ((halfDiagonal cs : ℝ)) := by
      have h := le_of_lt hXq
      have hcast : ((0 : ℚ) : ℝ) ≤ ((radius - halfDiagonal cs : ℚ) : ℝ) := by
        exact_mod_cast h
      push_cast at hcast
      linarith
    have hYnn : (0 : ℝ) ≤ Real.sqrt 3 * (((cs : ℝ)) / 2) := by
      have hcs' : (0 : ℝ) < ((cs : ℝ)) := by exact_mod_cast hcs
      positivity
    have hb := sum_sq_bound ((vx : ℝ)) ((vy : ℝ)) ((vz : ℝ))
      ((dx : ℝ)) ((dy : ℝ)) ((dz : ℝ))
      (((radius : ℝ)) - ((halfDiagonal cs : ℝ))) (Real.sqrt 3 * (((cs : ℝ)) / 2))
      hAr hBr hXnn hYnn
    -- the the sqrt-3 majorant
    have hS0 : (0 : ℚ) ≤ sqrtThreeDouble * radiusSlack := by
      rw [sqrtThreeDouble, radiusSlack]; norm_num
    have hY3 : Real.sqrt 3 ≤ ((sqrtThreeDouble : ℝ)) * ((radiusSlack : ℝ)) := by
      have h1 : (0 : ℝ) ≤ ((sqrtThreeDouble : ℝ)) * ((radiusSlack : ℝ)) := by
        have hcast : ((0 : ℚ) : ℝ) ≤ ((sqrtThreeDouble * radiusSlack : ℚ) : ℝ) := by
          exact_mod_cast hS0
        push_cast at hcast
        linarith
      have h2 : (3 : ℝ) ≤ (((sqrtThreeDouble : ℝ)) * ((radiusSlack : ℝ))) ^ 2 := by
        have hcast : ((3 : ℚ) : ℝ) ≤ (((sqrtThreeDouble * radiusSlack) *
            (sqrtThreeDouble * radiusSlack) : ℚ) : ℝ) := by
          exact_mod_cast sqrtThreeDouble_slack_sq
        push_cast at hcast
        nlinarith [hcast]
      calc Real.sqrt 3 ≤ Real.sqrt ((((sqrtThreeDouble : ℝ)) * ((radiusSlack : ℝ))) ^ 2) :=
            Real.sqrt_le_sqrt h2
        _ = ((sqrtThreeDouble : ℝ)) * ((radiusSlack : ℝ)) := Real.sqrt_sq h1
    -- rational inequality: (radius - h) + s3*slack*(cs/2) ≤ radius * slack
    have hq : (radius - halfDiagonal cs) + (sqrtThreeDouble * radiusSlack) * (cs / 2) ≤
        radius * radiusSlack := by
      have hslack1 : (1 : ℚ) ≤ radiusSlack := by rw [radiusSlack]; norm_num
      have hcase2 : cs / 2 * sqrtThreeDouble < radius := by rw [← hhd]; exact hcase
      have hkey : 0 ≤ (radius - cs / 2 * sqrtThreeDouble) * (radiusSlack - 1) :=
        mul_nonneg (by linarith) (by linarith)
      rw [hhd]
      nlinarith [hkey]
    -- assemble over the reals
    have hXY : (((radius : ℝ)) - ((halfDiagonal cs : ℝ))) +
        Real.sqrt 3 * (((cs : ℝ)) / 2) ≤ ((radius : ℝ)) * ((radiusSlack : ℝ)) := by
      have hstep : Real.sqrt 3 * (((cs : ℝ)) / 2) ≤
          ((sqrtThreeDouble : ℝ)) * ((radiusSlack : ℝ)) * (((cs : ℝ)) / 2) := by
        apply mul_le_mul_of_nonneg_right hY3
        have hcs' : (0 : ℝ) < ((cs : ℝ)) := by exact_mod_cast hcs
        positivity
      have hqr : (((radius : ℝ)) - ((halfDiagonal cs : ℝ))) +
          ((sqrtThreeDouble : ℝ)) * ((radiusSlack : ℝ)) * (((cs : ℝ)) / 2) ≤
          ((radius : ℝ)) * ((radiusSlack : ℝ)) := by
        have hcast : (((radius - halfDiagonal cs) +
            (sqrtThreeDouble * radiusSlack) * (cs / 2) : ℚ) : ℝ) ≤
            ((radius * radiusSlack : ℚ) : ℝ) := by exact_mod_cast hq
        push_cast at hcast
        linarith
      linarith [hstep, hqr]
    have hfinR : ((vx : ℝ) - (dx : ℝ)) ^ 2 + ((vy : ℝ) - (dy : ℝ)) ^ 2 +
        ((vz : ℝ) - (dz : ℝ)) ^ 2 ≤ (((radius : ℝ)) * ((radiusSlack : ℝ))) ^ 2 := by
      refine hb.trans ?_
      have hsumnn : (0 : ℝ) ≤ (((radius : ℝ)) - ((halfDiagonal cs : ℝ))) +
          Real.sqrt 3 * (((cs : ℝ)) / 2) := by linarith
      exact pow_le_pow_left₀ hsumnn hXY 2
    have hfinQ : (((vx - dx) * (vx - dx) + (vy - dy) * (vy - dy) +
        (vz - dz) * (vz - dz) : ℚ) : ℝ) ≤
        (((radius * radiusSlack) * (radius * radiusSlack) : ℚ) : ℝ) := by
      push_cast
      nlinarith [hfinR]
    exact_mod_cast hfinQ

/-- Componentwise form of `distSquared`. -/
theorem distSquared_comp (a b : Vec3) : distSquared a b =
    (a.x - b.x) * (a.x - b.x) + (a.y - b.y) * (a.y - b.y) +
      (a.z - b.z) * (a.z - b.z) := rfl

set_option maxHeartbeats 1000000 in
/-- The distance bound behind amended claim C6: a query origin and an
element origin whose cells differ by an inner-classified offset `c` are at
most `radius * radiusSlack` apart (squared). -/
theorem c6_dist_sq_bound (cs radius : ℚ) (hcs : 0 < cs) (hr : 0 < radius)
    (c : CellIndex) (hinner : innerTest cs radius c = true)
    (go qo eo : Vec3)
    (hcell : locToCoords cs go eo = c + locToCoords cs go qo) :
    distSquared qo eo ≤ (radius * radiusSlack) * (radius * radiusSlack) := by
  rw [innerTest, decide_eq_true_eq] at hinner
  have hax : roundToInt32 ((eo.x - go.x) / cs) =
      c.x + roundToInt32 ((qo.x - go.x) / cs) := congrArg CellIndex.x hcell
  have hay : roundToInt32 ((eo.y - go.y) / cs) =
      c.y + roundToInt32 ((qo.y - go.y) / cs) := congrArg CellIndex.y hcell
  have haz : roundToInt32 ((eo.z - go.z) / cs) =
      c.z + roundToInt32 ((qo.z - go.z) / cs) := congrArg CellIndex.z hcell
  have hex := round_div_bound hcs hax
  have hey := round_div_bound hcs hay
  have hez := round_div_bound hcs haz
  have hdx := round_div_bound hcs (Eq.refl (roundToInt32 ((qo.x - go.x) / cs)))
  have hdy := round_div_bound hcs (Eq.refl (roundToInt32 ((qo.y - go.y) / cs)))
  have hdz := round_div_bound hcs (Eq.refl (roundToInt32 ((qo.z - go.z) / cs)))
  generalize hox : roundToInt32 ((qo.x - go.x) / cs) = ox at hex hdx
  generalize hoy : roundToInt32 ((qo.y - go.y) / cs) = oy at hey hdy
  generalize hoz : roundToInt32 ((qo.z - go.z) / cs) = oz at hez hdz
  have hinner' :
      (if 0 < (c.x : ℚ) * cs then (c.x : ℚ) * cs + cs / 2 else (c.x : ℚ) * cs - cs / 2) *
        (if 0 < (c.x : ℚ) * cs then (c.x : ℚ) * cs + cs / 2 else (c.x : ℚ) * cs - cs / 2) +
      (if 0 < (c.y : ℚ) * cs then (c.y : ℚ) * cs + cs / 2 else (c.y : ℚ) * cs - cs / 2) *
        (if 0 < (c.y : ℚ) * cs then (c.y : ℚ) * cs + cs / 2 else (c.y : ℚ) * cs - cs / 2) +
      (if 0 < (c.z : ℚ) * cs then (c.z : ℚ) * cs + cs / 2 else (c.z : ℚ) * cs - cs / 2) *
        (if 0 < (c.z : ℚ) * cs then (c.z : ℚ) * cs + cs / 2 else (c.z : ℚ) * cs - cs / 2) ≤
        (radius - halfDiagonal cs) * (radius - halfDiagonal cs) := hinner
  have hcore := c6_core cs radius
    ((c.x : ℚ) * cs + (eo.x - go.x - ((c.x + ox : ℤ) : ℚ) * cs))
    ((c.y : ℚ) * cs + (eo.y - go.y - ((c.y + oy : ℤ) : ℚ) * cs))
    ((c.z : ℚ) * cs + (eo.z - go.z - ((c.z + oz : ℤ) : ℚ) * cs))
    (qo.x - go.x - (ox : ℚ) * cs) (qo.y - go.y - (oy : ℚ) * cs)
    (qo.z - go.z - (oz : ℚ) * cs)
    (if 0 < (c.x : ℚ) * cs then (c.x : ℚ) * cs + cs / 2 else (c.x : ℚ) * cs - cs / 2)
    (if 0 < (c.y : ℚ) * cs then (c.y : ℚ) * cs + cs / 2 else (c.y : ℚ) * cs - cs / 2)
    (if 0 < (c.z : ℚ) * cs then (c.z : ℚ) * cs + cs / 2 else (c.z : ℚ) * cs - cs / 2)
    hcs hr
    (axis_farthest_bound hcs ((c.x : ℚ) * cs) hex)
    (axis_farthest_bound hcs ((c.y : ℚ) * cs) hey)
    (axis_farthest_bound hcs ((c.z : ℚ) * cs) hez)
    (axis_farthest_lower hcs ((c.x : ℚ) * cs))
    (axis_farthest_lower hcs ((c.y : ℚ) * cs))
    (axis_farthest_lower hcs ((c.z : ℚ) * cs))
    hdx hdy hdz hinner'
  have hdisteq : distSquared qo eo =
      ((c.x : ℚ) * cs + (eo.x - go.x - ((c.x + ox : ℤ) : ℚ) * cs) -
        (qo.x - go.x - (ox : ℚ) * cs)) *
      ((c.x : ℚ) * cs + (eo.x - go.x - ((c.x + ox : ℤ) : ℚ) * cs) -
        (qo.x - go.x - (ox : ℚ) * cs)) +
      ((c.y : ℚ) * cs + (eo.y - go.y - ((c.y + oy : ℤ) : ℚ) * cs) -
        (qo.y - go.y - (oy : ℚ) * cs)) *
      ((c.y : ℚ) * cs + (eo.y - go.y - ((c.y + oy : ℤ) : ℚ) * cs) -
        (qo.y - go.y - (oy : ℚ) * cs)) +
      ((c.z : ℚ) * cs + (eo.z - go.z - ((c.z + oz : ℤ) : ℚ) * cs) -
        (qo.z - go.z - (oz : ℚ) * cs)) *
      ((c.z : ℚ) * cs + (eo.z - go.z - ((c.z + oz : ℤ) : ℚ) * cs) -
        (qo.z - go.z - (oz : ℚ) * cs)) := by
    rw [distSquared_comp]
    push_cast
    ring
  rw [hdisteq]
  exact hcore

/-- On one axis the clamped point is at least as close to `v` as any point
`m` of the interval. -/
theorem clamp_axis_sq {lo hi v m : ℚ} (hlo : lo ≤ m) (hhi : m ≤ hi) :
    (v - max lo (min hi v)) * (v - max lo (min hi v)) ≤ (v - m) * (v - m) := by
  rcases le_total v lo with h | h
  · have h1 : min hi v = v := min_eq_right (le_trans h (le_trans hlo hhi))
    rw [h1, max_eq_left h]
    nlinarith
  · rcases le_total hi v with h2 | h2
    · have h1 : min hi v = hi := min_eq_left h2
      rw [h1, max_eq_right (le_trans hlo hhi)]
      nlinarith
    · have h1 : min hi v = v := min_eq_right h2
      rw [h1, max_eq_right h]
      nlinarith

/-- A point within `R` of a box's origin certifies `BoxIntersectsSphere`
against the box, provided the extents are nonnegative. -/
theorem box_overlap_of_dist (eo ext qo : Vec3) (R : ℚ)
    (hx : 0 ≤ ext.x) (hy : 0 ≤ ext.y) (hz : 0 ≤ ext.z)
    (hd : distSquared qo eo ≤ R * R) :
    boxIntersectsSphere eo ext qo R = true := by
  rw [boxIntersectsSphere, decide_eq_true_eq, fsquare, distSquared_comp, Box.closestPointTo]
  rw [distSquared_comp] at hd
  have hcx := @clamp_axis_sq (eo.x - ext.x) (eo.x + ext.x) qo.x eo.x
    (by linarith) (by linarith)
  have hcy := @clamp_axis_sq (eo.y - ext.y) (eo.y + ext.y) qo.y eo.y
    (by linarith) (by linarith)
  have hcz := @clamp_axis_sq (eo.z - ext.z) (eo.z + ext.z) qo.z eo.z
    (by linarith) (by linarith)
  simp only [Vec3.sub_x, Vec3.sub_y, Vec3.sub_z, Vec3.add_x, Vec3.add_y, Vec3.add_z]
  linarith [hcx, hcy, hcz, hd]

set_option maxHeartbeats 1000000 in
/-- Claim C6 (amended): for every positive query radius, an element stored
in a cell reached through an inner-classified offset — as the cached path
does when it emits without a per-element test — has bounds that overlap the
query sphere inflated by the factor `radiusSlack = 1 + 2⁻⁴⁰` (the inflation
absorbs the deficit of the compile-time double `√3`; the claim as stated,
with arbitrary radius and no inflation, is refuted by
`c6_inner_false_positive_cex`). -/
theorem c6_inner_soundness (cs radius : ℚ) (hcs : 0 < cs) (hr : 0 < radius)
    (c : CellIndex) (hinner : innerTest cs radius c = true)
    (go qo eo : Vec3) (sh : BShape) (hsh : shapeNonneg sh = true)
    (hcell : locToCoords cs go eo = c + locToCoords cs go qo) :
    Bounds.overlapsSphere ⟨eo, sh⟩ qo (radius * radiusSlack) = true := by
  have hd := c6_dist_sq_bound cs radius hcs hr c hinner go qo eo hcell
  have hslnn : (0 : ℚ) ≤ radiusSlack := by rw [radiusSlack]; norm_num
  have hrsnn : 0 ≤ radius * radiusSlack := mul_nonneg (le_of_lt hr) hslnn
  cases sh with
  | sphere r0 =>
    have hr0 : (0 : ℚ) ≤ r0 := by
      rw [shapeNonneg, decide_eq_true_eq] at hsh
      exact hsh
    simp only [Bounds.overlapsSphere, fsquare, decide_eq_true_eq]
    have : distSquared qo eo ≤ (r0 + radius * radiusSlack) * (r0 + radius * radiusSlack) := by
      nlinarith [hd, hr0, hrsnn]
    exact this
  | box ext =>
    have hext : (0 : ℚ) ≤ ext.x ∧ (0 : ℚ) ≤ ext.y ∧ (0 : ℚ) ≤ ext.z := by
      rw [shapeNonneg, decide_eq_true_eq] at hsh
      exact hsh
    show boxIntersectsSphere eo ext qo (radius * radiusSlack) = true
    exact box_overlap_of_dist eo ext qo (radius * radiusSlack)
      hext.1 hext.2.1 hext.2.2 hd

/-- Witness for the amended claim C6: cell size 100, radius 200, the center
offset (inner for this radius), grid origin and query origin at zero, and a
radius-0 sphere element at the cell center. -/
theorem c6_witness :
    ((0 : ℚ) < 100 ∧ (0 : ℚ) < 200 ∧ innerTest 100 200 ⟨0, 0, 0⟩ = true ∧
      shapeNonneg (.sphere 0) = true ∧
      locToCoords 100 Vec3.zero Vec3.zero =
        (⟨0, 0, 0⟩ : CellIndex) + locToCoords 100 Vec3.zero Vec3.zero) ∧
      Bounds.overlapsSphere ⟨Vec3.zero, .sphere 0⟩ Vec3.zero (200 * radiusSlack) = true :=
  ⟨⟨by norm_num, by norm_num, by with_unfolding_all decide,
      by with_unfolding_all decide, by with_unfolding_all decide⟩,
    c6_inner_soundness 100 200 (by norm_num) (by norm_num) ⟨0, 0, 0⟩
      (by with_unfolding_all decide) Vec3.zero Vec3.zero Vec3.zero (.sphere 0)
      (by with_unfolding_all decide) (by with_unfolding_all decide)⟩

/-! ## Claim theorems: insert/remove round trip (C8)

`TSlotMap::Insert` followed by `TSlotMap::Remove` on the returned id is
analysed exactly; `insertSane` captures the free-list states `Insert`'s
buggy `FreeHead < Dense.size()` test still handles correctly (the free head
either sits one past the end of a fully occupied slot array, or points at a
vacant in-range slot).  On top of the slot-map round trip, the grid-level
round trip restores all lookups but leaves a newly created host cell (and
the extended envelope) behind. -/

def insertSane {V : Type} (m : SlotMap V) : Bool :=
  (decide (m.freeHead = m.slots.length) && decide (m.dense.length = m.slots.length)) ||
  (decide (m.freeHead < m.dense.length) && decide (m.dense.length ≤ m.slots.length) &&
    (match m.slots[m.freeHead]? with
     | some s => decide (s.version % 2 = 0)
     | none => false))

theorem lor_one_odd (a : ℕ) : (a ||| 1) % 2 = 1 := by simp

theorem remove_freshlast {V : Type} (S : List Slot) (dense : List (ElementId × V))
    (F idx ver : ℕ) (v : V) (hv : ver % 2 = 1)
    (hS : S[idx]? = some ⟨ver, dense.length⟩) :
    SlotMap.remove ⟨S, dense ++ [(⟨idx, ver⟩, v)], F⟩ ⟨idx, ver⟩ =
      (some v, ⟨S.set idx ⟨ver + 1, F⟩, dense, idx⟩) := by
  unfold SlotMap.remove
  dsimp only
  rw [hS]
  dsimp only
  rw [if_neg (by simp [Slot.isOccupied, hv])]
  rw [List.getElem?_concat_length]
  dsimp only
  rw [if_neg (by simp)]
  rw [List.dropLast_concat]


theorem insert_push_eq {V : Type} (slots : List Slot) (dense : List (ElementId × V)) (v : V)
    (h2 : dense.length = slots.length) (hsmall : dense.length < 4294967295) :
    SlotMap.insert ⟨slots, dense, slots.length⟩ v =
      (⟨slots.length, 1⟩,
        ⟨slots ++ [⟨1, dense.length⟩], dense ++ [(⟨slots.length, 1⟩, v)], slots.length + 1⟩) := by
  unfold SlotMap.insert
  dsimp only
  rw [if_neg (by omega), if_neg (by omega)]
  simp

theorem insert_reuse_eq {V : Type} (slots : List Slot) (dense : List (ElementId × V))
    (freeHead : ℕ) (s : Slot) (v : V)
    (h1 : freeHead < dense.length) (hslot : slots[freeHead]? = some s)
    (hsmall : dense.length < 4294967295) :
    SlotMap.insert ⟨slots, dense, freeHead⟩ v =
      (⟨freeHead, s.version ||| 1⟩,
        ⟨slots.set freeHead ⟨s.version ||| 1, dense.length⟩,
          dense ++ [(⟨freeHead, s.version ||| 1⟩, v)], s.idxOrFree⟩) := by
  unfold SlotMap.insert
  dsimp only
  rw [if_neg (by omega), if_pos h1, hslot]

theorem get_none_of_even {V : Type} (m : SlotMap V) (id : ElementId) (s : Slot)
    (hslot : m.slots[id.index]? = some s) (heven : s.version % 2 = 0) :
    m.get id = none := by
  unfold SlotMap.get
  rw [hslot]
  dsimp only
  rw [if_neg (by simp [Slot.isOccupied, heven])]

theorem get_none_of_oob {V : Type} (m : SlotMap V) (id : ElementId)
    (h : m.slots.length ≤ id.index) : m.get id = none := by
  unfold SlotMap.get
  rw [List.getElem?_eq_none h]

theorem slotmap_roundtrip {V : Type} (m : SlotMap V) (v : V)
    (hsane : insertSane m = true) (hsmall : m.dense.length < 4294967295) :
    ((m.insert v).2.remove (m.insert v).1).1 = some v ∧
    (∀ idq : ElementId, ((m.insert v).2.remove (m.insert v).1).2.get idq = m.get idq) ∧
    m.get (m.insert v).1 = none := by
  obtain ⟨slots, dense, freeHead⟩ := m
  unfold insertSane at hsane
  simp only [Bool.or_eq_true, Bool.and_eq_true, decide_eq_true_eq] at hsane
  rcases hsane with ⟨h1, h2⟩ | ⟨⟨h1, h2⟩, h3⟩
  · -- push-a-new-slot branch: the free head sits at the end of the slot array
    dsimp only at h1 h2 hsmall ⊢
    subst h1
    rw [insert_push_eq slots dense v h2 hsmall]
    dsimp only
    have hrem := remove_freshlast (slots ++ [⟨1, dense.length⟩]) dense (slots.length + 1)
      slots.length 1 v (by decide) (by rw [List.getElem?_concat_length])
    rw [hrem]
    dsimp only
    refine ⟨rfl, ?_, ?_⟩
    · intro idq
      rcases Nat.lt_trichotomy idq.index slots.length with hq | hq | hq
      · have hset : ((slots ++ [Slot.mk 1 dense.length]).set slots.length (Slot.mk 2 (slots.length + 1)))[idq.index]? =
            slots[idq.index]? := by
          rw [List.getElem?_set_ne (by omega)]
          rw [List.getElem?_append, if_pos hq]
        unfold SlotMap.get
        rw [hset]
      · have hset : ((slots ++ [Slot.mk 1 dense.length]).set slots.length (Slot.mk 2 (slots.length + 1)))[idq.index]? =
            some (Slot.mk 2 (slots.length + 1)) := by
          rw [hq, List.getElem?_set_self]
          simp
        have hnone : slots[idq.index]? = none := List.getElem?_eq_none (by omega)
        unfold SlotMap.get
        rw [hset, hnone]
        dsimp only
        rw [if_neg (by simp [Slot.isOccupied])]
      · have hoob1 : ((slots ++ [Slot.mk 1 dense.length]).set slots.length (Slot.mk 2 (slots.length + 1)))[idq.index]? =
            (none : Option Slot) := by
          rw [List.getElem?_eq_none (by simp; omega)]
        have hoob2 : slots[idq.index]? = none := List.getElem?_eq_none (by omega)
        unfold SlotMap.get
        rw [hoob1, hoob2]
    · exact get_none_of_oob _ _ (by dsimp only; omega)
  · -- reuse-the-free-slot branch: the slot at the free head exists and is vacant
    dsimp only at h1 h2 h3 hsmall ⊢
    rcases hslot : slots[freeHead]? with _ | s
    · rw [hslot] at h3; exact absurd h3 (by simp)
    rw [hslot] at h3
    have heven : s.version % 2 = 0 := by simpa using h3
    have hfh : freeHead < slots.length := by
      obtain ⟨hlt, -⟩ := List.getElem?_eq_some.mp hslot
      exact hlt
    rw [insert_reuse_eq slots dense freeHead s v h1 hslot hsmall]
    dsimp only
    have hodd : (s.version ||| 1) % 2 = 1 := lor_one_odd s.version
    have hrem := remove_freshlast (slots.set freeHead ⟨s.version ||| 1, dense.length⟩) dense
      s.idxOrFree freeHead (s.version ||| 1) v hodd
      (by rw [List.getElem?_set_self]; simpa using hfh)
    rw [hrem]
    dsimp only
    rw [List.set_set]
    refine ⟨rfl, ?_, ?_⟩
    · intro idq
      rcases eq_or_ne idq.index freeHead with hq | hq
      · have hset : (slots.set freeHead (Slot.mk ((s.version ||| 1) + 1) s.idxOrFree))[idq.index]? =
            some (Slot.mk ((s.version ||| 1) + 1) s.idxOrFree) := by
          rw [hq, List.getElem?_set_self]
          exact hfh
        unfold SlotMap.get
        rw [hset, hq, hslot]
        dsimp only
        rw [if_neg (by simp [Slot.isOccupied]; omega), if_neg (by simp [Slot.isOccupied, heven])]
      · have hset : (slots.set freeHead (Slot.mk ((s.version ||| 1) + 1) s.idxOrFree))[idq.index]? =
            slots[idq.index]? := by
          rw [List.getElem?_set_ne (Ne.symm hq)]
        unfold SlotMap.get
        rw [hset]
    · exact get_none_of_even _ _ s hslot heven

theorem assocFind_update_self {α : Type} (l : List (CellIndex × α)) (c : CellIndex) (f : α → α) :
    assocFind (assocUpdate l c f) c = (assocFind l c).map f := by
  induction l with
  | nil => rfl
  | cons kv rest ih =>
    obtain ⟨k, v⟩ := kv
    by_cases hk : k = c
    · simp [assocUpdate, assocFind, hk]
    · simp [assocUpdate, assocFind, hk, ih]

theorem assocFind_update_ne {α : Type} (l : List (CellIndex × α)) (c c' : CellIndex)
    (f : α → α) (h : c' ≠ c) :
    assocFind (assocUpdate l c f) c' = assocFind l c' := by
  induction l with
  | nil => rfl
  | cons kv rest ih =>
    obtain ⟨k, v⟩ := kv
    by_cases hk : k = c
    · subst hk
      simp [assocUpdate, assocFind, Ne.symm h]
    · by_cases hk' : k = c'
      · subst hk'
        simp [assocUpdate, assocFind, hk]
      · simp [assocUpdate, assocFind, hk, hk', ih]

theorem assocUpdate_update {α : Type} (l : List (CellIndex × α)) (c : CellIndex) (f g : α → α) :
    assocUpdate (assocUpdate l c f) c g = assocUpdate l c (fun v => g (f v)) := by
  induction l with
  | nil => rfl
  | cons kv rest ih =>
    obtain ⟨k, v⟩ := kv
    by_cases hk : k = c
    · simp [assocUpdate, hk]
    · simp [assocUpdate, hk, ih]

theorem assocUpdate_eq_self {α : Type} (l : List (CellIndex × α)) (c : CellIndex) (f : α → α)
    (h : ∀ v, assocFind l c = some v → f v = v) :
    assocUpdate l c f = l := by
  induction l with
  | nil => rfl
  | cons kv rest ih =>
    obtain ⟨k, v⟩ := kv
    by_cases hk : k = c
    · have hv : f v = v := h v (by simp [assocFind, hk])
      simp [assocUpdate, hk, hv]
    · have : assocUpdate rest c f = rest := by
        refine ih ?_
        intro w hw
        exact h w (by simp [assocFind, hk, hw])
      simp [assocUpdate, hk, this]

theorem assocFind_append_singleton_ne {α : Type} (l : List (CellIndex × α)) (c c' : CellIndex)
    (x : α) (h : c' ≠ c) :
    assocFind (l ++ [(c, x)]) c' = assocFind l c' := by
  induction l with
  | nil => simp [assocFind, Ne.symm h]
  | cons kv rest ih =>
    obtain ⟨k, v⟩ := kv
    by_cases hk : k = c'
    · simp [assocFind, hk]
    · simp [assocFind, hk, ih]

theorem assocFind_append_of_none {α : Type} (l l2 : List (CellIndex × α)) (c : CellIndex)
    (h : assocFind l c = none) :
    assocFind (l ++ l2) c = assocFind l2 c := by
  induction l with
  | nil => rfl
  | cons kv rest ih =>
    obtain ⟨k, v⟩ := kv
    by_cases hk : k = c
    · simp [assocFind, hk] at h
    · simp only [assocFind, hk] at h
      simp [assocFind, hk, ih h]

theorem assocUpdate_append_of_none {α : Type} (l l2 : List (CellIndex × α)) (c : CellIndex)
    (f : α → α) (h : assocFind l c = none) :
    assocUpdate (l ++ l2) c f = l ++ assocUpdate l2 c f := by
  induction l with
  | nil => rfl
  | cons kv rest ih =>
    obtain ⟨k, v⟩ := kv
    by_cases hk : k = c
    · simp [assocFind, hk] at h
    · simp only [assocFind, hk] at h
      simp [assocUpdate, hk, ih h]

theorem findPos_append_self (l : List ElementId) (id : ElementId) (h : id ∉ l) :
    findPos (l ++ [id]) id = some l.length := by
  induction l with
  | nil => simp [findPos]
  | cons a rest ih =>
    have ha : a ≠ id := by
      intro hc
      exact h (by simp [hc])
    have hrest : id ∉ rest := fun hc => h (by simp [hc])
    simp [findPos, ha, ih hrest]

theorem setErase_append_fresh (l : List ElementId) (id : ElementId) (h : id ∉ l) :
    setErase (l ++ [id]) id = l := by
  unfold setErase
  rw [findPos_append_self l id h]
  rw [List.getLast?_concat]
  dsimp only
  rw [List.set_append_right]
  · simp
  · omega

set_option maxHeartbeats 1000000 in
/-- C8 (amended): `AddElement(b, p)` followed by `RemoveElement` on the
returned id yields `p` back, but the grid is only indistinguishable from the
initial state up to the host cell and the envelope: every slot-map lookup is
restored, every other cell is untouched, and the host cell ends up holding
the cell that was there before the insert -- or, when the coordinate was
vacant, a freshly created EMPTY cell, with the envelope extended by that
cell's geometric box (the original claim of full indistinguishability fails
on exactly this case, see the counterexample).  The hypotheses: the slot map
is in a reachable free-list state, below the 2^32-1 capacity guard, and
every id stored in the host cell is live. -/
theorem c8_roundtrip_amended {α : Type} (cs : ℚ) (g : Grid α) (b : Bounds) (p : α)
    (hsane : insertSane g.elements = true)
    (hsmall : g.elements.dense.length < 4294967295)
    (hlive : ∀ cell, g.findCell (locToCoords cs g.origin b.origin) = some cell →
      ∀ idq ∈ cell.elems, g.elements.get idq ≠ none) :
    ((g.addElement cs b p).2.removeElement (g.addElement cs b p).1).1 =
        some ⟨locToCoords cs g.origin b.origin, b, p⟩ ∧
    (∀ idq : ElementId,
      ((g.addElement cs b p).2.removeElement (g.addElement cs b p).1).2.elements.get idq =
        g.elements.get idq) ∧
    (∀ co : CellIndex, co ≠ locToCoords cs g.origin b.origin →
      ((g.addElement cs b p).2.removeElement (g.addElement cs b p).1).2.findCell co =
        g.findCell co) ∧
    ((g.addElement cs b p).2.removeElement (g.addElement cs b p).1).2.findCell
        (locToCoords cs g.origin b.origin) =
      some ((g.findCell (locToCoords cs g.origin b.origin)).getD Cell.emptyCell) ∧
    ((g.addElement cs b p).2.removeElement (g.addElement cs b p).1).2.envelope =
      (if (g.findCell (locToCoords cs g.origin b.origin)).isSome then g.envelope
       else envAdd g.envelope (cellGeomBox cs g.origin (locToCoords cs g.origin b.origin))) := by
  obtain ⟨hpay, hget, hnone⟩ :=
    slotmap_roundtrip g.elements (⟨locToCoords cs g.origin b.origin, b, p⟩ : Element α)
      hsane hsmall
  simp only [Grid.findCell] at hlive ⊢
  rcases hrem : (g.elements.insert (⟨locToCoords cs g.origin b.origin, b, p⟩ : Element α)).2.remove
      (g.elements.insert (⟨locToCoords cs g.origin b.origin, b, p⟩ : Element α)).1 with ⟨r, mf⟩
  rw [hrem] at hpay hget
  have hr : r = some ⟨locToCoords cs g.origin b.origin, b, p⟩ := hpay
  subst hr
  have hgetq : ∀ idq : ElementId, mf.get idq = g.elements.get idq := fun idq => hget idq
  have hor : assocFind g.cells (locToCoords cs g.origin b.origin) = none ∨
      ∃ c, assocFind g.cells (locToCoords cs g.origin b.origin) = some c := by
    cases assocFind g.cells (locToCoords cs g.origin b.origin) with
    | none => exact Or.inl rfl
    | some c => exact Or.inr ⟨c, rfl⟩
  rcases hor with hfind | ⟨cell0, hfind⟩
  · -- the host cell did not exist: the round trip leaves a fresh empty cell behind
    have hadd : g.addElement cs b p =
        ((g.elements.insert ⟨locToCoords cs g.origin b.origin, b, p⟩).1,
          { origin := g.origin,
            elements := (g.elements.insert ⟨locToCoords cs g.origin b.origin, b, p⟩).2,
            cells := g.cells ++
              [(locToCoords cs g.origin b.origin,
                Cell.mk [(g.elements.insert ⟨locToCoords cs g.origin b.origin, b, p⟩).1] none)],
            envelope := envAdd g.envelope
              (cellGeomBox cs g.origin (locToCoords cs g.origin b.origin)) }) := by
      unfold Grid.addElement Grid.findOrAddCell Grid.findCell
      dsimp only
      rw [hfind]
      dsimp only
      rw [assocUpdate_append_of_none _ _ _ _ hfind]
      simp [assocUpdate, setInsert, Cell.emptyCell]
    rw [hadd]
    dsimp only
    unfold Grid.removeElement
    dsimp only
    rw [hrem]
    dsimp only
    unfold Grid.findCell
    dsimp only
    have hfcell : assocFind
        (g.cells ++
          [(locToCoords cs g.origin b.origin,
            Cell.mk [(g.elements.insert ⟨locToCoords cs g.origin b.origin, b, p⟩).1] none)])
        (locToCoords cs g.origin b.origin) =
        some (Cell.mk [(g.elements.insert ⟨locToCoords cs g.origin b.origin, b, p⟩).1] none) := by
      rw [assocFind_append_of_none _ _ _ hfind]
      simp [assocFind]
    rw [hfcell]
    dsimp only
    have hse : setErase [(g.elements.insert (⟨locToCoords cs g.origin b.origin, b, p⟩ : Element α)).1]
        (g.elements.insert (⟨locToCoords cs g.origin b.origin, b, p⟩ : Element α)).1 = [] :=
      setErase_append_fresh [] _ (by simp)
    have hcells : assocUpdate
        (g.cells ++
          [(locToCoords cs g.origin b.origin,
            Cell.mk [(g.elements.insert ⟨locToCoords cs g.origin b.origin, b, p⟩).1] none)])
        (locToCoords cs g.origin b.origin)
        (fun cell => { cell with elems := (setErase cell.elems
          (g.elements.insert ⟨locToCoords cs g.origin b.origin, b, p⟩).1) }) =
        g.cells ++ [(locToCoords cs g.origin b.origin, Cell.mk [] none)] := by
      rw [assocUpdate_append_of_none _ _ _ _ hfind]
      simp [assocUpdate, hse]
    rw [hcells]
    refine ⟨rfl, hgetq, ?_, ?_, ?_⟩
    · intro co hco
      exact assocFind_append_singleton_ne g.cells _ co _ hco
    · rw [assocFind_append_of_none _ _ _ hfind, hfind]
      simp [assocFind, Cell.emptyCell]
    · rw [hfind]
      simp
  · -- the host cell already existed: the round trip restores the grid exactly
    have hadd : g.addElement cs b p =
        ((g.elements.insert ⟨locToCoords cs g.origin b.origin, b, p⟩).1,
          { origin := g.origin,
            elements := (g.elements.insert ⟨locToCoords cs g.origin b.origin, b, p⟩).2,
            cells := assocUpdate g.cells (locToCoords cs g.origin b.origin)
              (fun cell => { cell with elems := (setInsert cell.elems
                (g.elements.insert ⟨locToCoords cs g.origin b.origin, b, p⟩).1) }),
            envelope := g.envelope }) := by
      unfold Grid.addElement Grid.findOrAddCell Grid.findCell
      dsimp only
      rw [hfind]
    rw [hadd]
    dsimp only
    unfold Grid.removeElement
    dsimp only
    rw [hrem]
    dsimp only
    unfold Grid.findCell
    dsimp only
    have hfcell : assocFind
        (assocUpdate g.cells (locToCoords cs g.origin b.origin)
          (fun cell => { cell with elems := (setInsert cell.elems
            (g.elements.insert ⟨locToCoords cs g.origin b.origin, b, p⟩).1) }))
        (locToCoords cs g.origin b.origin) =
        some { cell0 with elems := (setInsert cell0.elems
          (g.elements.insert ⟨locToCoords cs g.origin b.origin, b, p⟩).1) } := by
      rw [assocFind_update_self, hfind]
      rfl
    rw [hfcell]
    dsimp only
    have hid : (g.elements.insert (⟨locToCoords cs g.origin b.origin, b, p⟩ : Element α)).1 ∉
        cell0.elems := by
      intro hmem
      exact hlive cell0 hfind _ hmem hnone
    have hcells : assocUpdate
        (assocUpdate g.cells (locToCoords cs g.origin b.origin)
          (fun cell => { cell with elems := (setInsert cell.elems
            (g.elements.insert ⟨locToCoords cs g.origin b.origin, b, p⟩).1) }))
        (locToCoords cs g.origin b.origin)
        (fun cell => { cell with elems := (setErase cell.elems
          (g.elements.insert ⟨locToCoords cs g.origin b.origin, b, p⟩).1) }) = g.cells := by
      rw [assocUpdate_update]
      refine assocUpdate_eq_self _ _ _ ?_
      intro w hw
      rw [hfind] at hw
      have hw' : cell0 = w := by injection hw
      subst hw'
      dsimp only
      rw [setInsert, if_neg hid]
      rw [setErase_append_fresh _ _ hid]
    rw [hcells]
    refine ⟨rfl, hgetq, ?_, ?_, ?_⟩
    · intro co hco
      rfl
    · rw [hfind]
      rfl
    · rw [hfind]
      rfl

/-- Concrete bounds for the C8 trace: a sphere of radius 5 (below half the
cell size 50) at (10,10,10). -/
def c8Bounds : Bounds := ⟨⟨10, 10, 10⟩, BShape.sphere 5⟩

/-- The grid after `AddElement(c8Bounds, 7)` on the empty grid. -/
def c8Grid1 : Grid ℕ := ((Grid.emptyGrid (α := ℕ)).addElement 100 c8Bounds 7).2

/-- The id returned by that `AddElement`. -/
def c8Id : ElementId := ((Grid.emptyGrid (α := ℕ)).addElement 100 c8Bounds 7).1

/-- C8 counterexample: on the empty grid (cell size 100), `AddElement`
followed by `RemoveElement` on the returned id does yield the payload back,
but the resulting grid is NOT indistinguishable from the initial state: the
cell table now holds the (empty) host cell (0,0,0) and the envelope is no
longer invalid, because `RemoveElement` never deletes emptied cells and
nothing shrinks the envelope. -/
theorem c8_roundtrip_not_identity_cex :
    (c8Grid1.removeElement c8Id).1 = some ⟨⟨0, 0, 0⟩, c8Bounds, 7⟩ ∧
    (c8Grid1.removeElement c8Id).2.cells = [(⟨0, 0, 0⟩, Cell.emptyCell)] ∧
    (c8Grid1.removeElement c8Id).2.envelope ≠ none ∧
    (c8Grid1.removeElement c8Id).2 ≠ Grid.emptyGrid := by
  with_unfolding_all decide

/-- Witness for the amended C8 theorem: the empty grid satisfies the
hypotheses, and the round trip on it yields the payload 7 back. -/
theorem c8_witness :
    insertSane (Grid.emptyGrid (α := ℕ)).elements = true ∧
    (((Grid.emptyGrid (α := ℕ)).addElement 100 c8Bounds 7).2.removeElement
        ((Grid.emptyGrid (α := ℕ)).addElement 100 c8Bounds 7).1).1 =
      some ⟨locToCoords 100 (Grid.emptyGrid (α := ℕ)).origin c8Bounds.origin, c8Bounds, 7⟩ :=
  ⟨by with_unfolding_all decide,
    (c8_roundtrip_amended 100 (Grid.emptyGrid (α := ℕ)) c8Bounds 7
      (by with_unfolding_all decide) (by decide)
      (fun cell h => by simp [Grid.findCell, Grid.emptyGrid, assocFind] at h)).1⟩


end SpatialGrid
